import Mathlib

set_option autoImplicit false

/-!
Shallow embedding of the ECSRPG turn-based dungeon-crawl engine
(`ecs.py`, `systems.py`, `components.py`, `main.py`) and proofs about it.

Entities are integer ids; component pools are Python dicts from entity id
to component value.  Machine integers are modelled as `Int` (Python ints
are unbounded), Python floor division `//` as `Int.fdiv`.
-/

namespace ECSRPG

abbrev Entity := Nat

/-- A Python `dict` as an ordered association list (insertion order,
keys unique by construction of the operations below). -/
abbrev Dict (κ α : Type) : Type := List (κ × α)

namespace Dict

variable {κ α : Type} [DecidableEq κ]

/-- `d.get(k)` — `None` when absent. -/
def get : Dict κ α → κ → Option α
  | [], _ => none
  | (k, v) :: rest, e => if k = e then some v else get rest e

/-- `d[k] = v` — overwrite in place when present, else append at the end. -/
def set : Dict κ α → κ → α → Dict κ α
  | [], e, v => [(e, v)]
  | (k, w) :: rest, e, v => if k = e then (e, v) :: rest else (k, w) :: set rest e v

/-- `del d[k]` (a no-op when the key is absent). -/
def erase (d : Dict κ α) (e : κ) : Dict κ α :=
  d.filter (fun kv => !(decide (kv.1 = e)))

/-- `d.keys()` in insertion order. -/
def keys (d : Dict κ α) : List κ := d.map Prod.fst

/-- `k in d`. -/
def hasKey (d : Dict κ α) (e : κ) : Bool := (d.get e).isSome

end Dict

/-! ## The entity/component store (`ecs.py`, class `World`)

The store keeps the live-entity set, the next never-issued id, the LIFO
free list, and the component pools.  The heterogeneous
`Dict[Type, Dict[Entity, Any]]` is modelled with one value type `V`:
`create_entity`/`destroy_entity` never inspect component values. -/

structure Store (V : Type) where
  entities : List Entity
  next_entity : Entity
  available_entities : List Entity
  components : List (Dict Entity V)

/-- Python `set.add` (order irrelevant for the properties proved here). -/
def setAdd (l : List Entity) (e : Entity) : List Entity :=
  if e ∈ l then l else l ++ [e]

/-- `World.create_entity`: pop the last freed id (`list.pop()` pops the
end) or issue `next_entity`. -/
def create_entity {V : Type} (s : Store V) : Entity × Store V :=
  match s.available_entities.getLast? with
  | some e =>
      (e, { s with available_entities := s.available_entities.dropLast,
                   entities := setAdd s.entities e })
  | none =>
      (s.next_entity, { s with next_entity := s.next_entity + 1,
                               entities := setAdd s.entities s.next_entity })

/-- `World.destroy_entity`: purge the id from every component pool, drop
it from the live set, and append it to the free list. -/
def destroy_entity {V : Type} (s : Store V) (e : Entity) : Store V :=
  if e ∈ s.entities then
    { s with components := s.components.map (fun p => p.erase e),
             entities := s.entities.filter (fun x => !(decide (x = e))),
             available_entities := s.available_entities ++ [e] }
  else s

/-! ## Components (`components.py`) used across the systems below. -/

structure PositionC where
  x : Int
  y : Int
deriving DecidableEq, Repr

structure HealthC where
  current : Int
  max : Int
deriving DecidableEq, Repr

structure CombatStatsC where
  power : Int
  defense : Int
deriving DecidableEq, Repr

inductive EquipSlot
  | weapon
  | armor
deriving DecidableEq, Repr

structure EquippableC where
  slot : EquipSlot
  power_bonus : Int
  defense_bonus : Int
deriving DecidableEq, Repr

structure ManaC where
  current : Int
  max : Int
deriving DecidableEq, Repr

/-- `MagicSpell` (the display name is irrelevant to the claims). -/
structure SpellC where
  damage : Int
  range : Int
  cooldown : Int
  mana_cost : Int
deriving DecidableEq, Repr

structure VelocityC where
  dx : Int
  dy : Int
deriving DecidableEq, Repr

/-! ## `bresenham_line` (systems.py 355–374)

The loop is fuel-recursive; `|Δx| + |Δy| + 1` iterations always suffice
(the algorithm appends `max(|Δx|,|Δy|) + 1` points). -/

def bresenhamAux :
    Nat → Int → Int → Int → Int → Int → Int → Int → Int → Int → List (Int × Int)
  | 0, _, _, _, _, _, _, _, _, _ => []
  | fuel + 1, x0, y0, x1, y1, dx, dy, sx, sy, err =>
    (x0, y0) ::
      (if x0 = x1 ∧ y0 = y1 then []
       else
         let e2 := 2 * err
         let err1 := if e2 ≥ dy then err + dy else err
         let x0n := if e2 ≥ dy then x0 + sx else x0
         let err2 := if e2 ≤ dx then err1 + dx else err1
         let y0n := if e2 ≤ dx then y0 + sy else y0
         bresenhamAux fuel x0n y0n x1 y1 dx dy sx sy err2)

/-- Bresenham's line algorithm, exactly as in systems.py: `dx = abs(x1 -
x0)`, `dy = -abs(y1 - y0)`, `sx/sy = ±1` by comparison, `err = dx + dy`. -/
def bresenham_line (x0 y0 x1 y1 : Int) : List (Int × Int) :=
  let dx : Int := (x1 - x0).natAbs
  let dy : Int := -((y1 - y0).natAbs : Int)
  let sx : Int := if x0 < x1 then 1 else -1
  let sy : Int := if y0 < y1 then 1 else -1
  bresenhamAux ((x1 - x0).natAbs + (y1 - y0).natAbs + 1) x0 y0 x1 y1 dx dy sx sy (dx + dy)

/-! ## Movement/collision resolver (`MovementSystem.update`, systems.py 22–93) -/

/-- The world slice read and written by one `MovementSystem.update` pass
(marker components are entity lists, data components are pools). -/
structure MoveWorld where
  grid_width : Int
  grid_height : Int
  player : Entity
  positions : Dict Entity PositionC
  velocities : Dict Entity VelocityC
  /-- entities with `BlocksMovement` -/
  blocks_movement : List Entity
  /-- entities with `Door` -/
  doors : List Entity
  /-- entities with `ProvidesFullHealing` -/
  provides_full_healing : List Entity
  /-- entities with `ProvidesSupplies` -/
  provides_supplies : List Entity
  health : Dict Entity HealthC
  /-- entities with `Enemy` (hostile-to-player creatures) -/
  enemy : List Entity
  /-- doors given a `ToggleDoorState` intent -/
  toggle_door : List Entity
  /-- movers given a `WantsToRest` intent -/
  wants_rest : List Entity
  /-- movers given a `WantsToTrade` intent -/
  wants_trade : List Entity
  /-- movers given a `WantsToAttack` intent (mover ↦ target) -/
  wants_attack : Dict Entity Entity
deriving Repr

/-- `{(pos.x, pos.y): e for e in get_entities_with(Position,
BlocksMovement)}` (later entries overwrite on a shared cell, as in a dict
comprehension). -/
def blocker_locations (w : MoveWorld) : Dict (Int × Int) Entity :=
  (w.positions.keys.filter (fun e => decide (e ∈ w.blocks_movement))).foldl
    (fun m e =>
      match w.positions.get e with
      | some p => m.set (p.x, p.y) e
      | none => m) []

/-- `get_entities_with(Position, Velocity)` with the player moved to the
front (`remove` + `insert(0, ...)`). -/
def entities_to_move (w : MoveWorld) : List Entity :=
  let base := w.positions.keys.filter (fun e => (w.velocities.get e).isSome)
  if w.player ∈ base then w.player :: base.erase w.player else base

/-- The per-mover body of the `MovementSystem.update` loop: bounds check,
blocker classification (door → toggle intent, full-healing NPC → rest
intent, supplies NPC → trade intent, `Health`-bearing entity → attack
intent unless both sides are `Enemy`), else commit the move and update
the blocker snapshot. -/
def move_step (w : MoveWorld) (blockers : Dict (Int × Int) Entity) (e : Entity) :
    MoveWorld × Dict (Int × Int) Entity :=
  match w.positions.get e, w.velocities.get e with
  | some pos, some vel =>
    if vel.dx = 0 ∧ vel.dy = 0 then (w, blockers)
    else
      let tx := pos.x + vel.dx
      let ty := pos.y + vel.dy
      if ¬(0 ≤ tx ∧ tx < w.grid_width ∧ 0 ≤ ty ∧ ty < w.grid_height) then
        (w, blockers)
      else
        match blockers.get (tx, ty) with
        | some tid =>
            if tid ∈ w.doors then
              ({ w with toggle_door := setAdd w.toggle_door tid }, blockers)
            else if tid ∈ w.provides_full_healing then
              ({ w with wants_rest := setAdd w.wants_rest e }, blockers)
            else if tid ∈ w.provides_supplies then
              ({ w with wants_trade := setAdd w.wants_trade e }, blockers)
            else if (w.health.get tid).isSome then
              if ¬(e ∈ w.enemy ∧ tid ∈ w.enemy) then
                ({ w with wants_attack := w.wants_attack.set e tid }, blockers)
              else (w, blockers)
            else (w, blockers)
        | none =>
            let blockers1 :=
              if (blockers.get (pos.x, pos.y)).isSome then
                blockers.erase (pos.x, pos.y)
              else blockers
            ({ w with positions := w.positions.set e (PositionC.mk tx ty) },
              blockers1.set (tx, ty) e)
  | _, _ => (w, blockers)

/-- One full `MovementSystem.update` pass: build the blocker snapshot,
then process the movers in order, each observing the updated snapshot. -/
def movement_pass (w : MoveWorld) : MoveWorld :=
  ((entities_to_move w).foldl (fun wb e => move_step wb.1 wb.2 e)
    (w, blocker_locations w)).1

/-- The claim's scenario: player (entity 0) at (5,5) with movement intent
(0,1) and a wall (entity 1) at (5,6), on the default 80×80 grid. -/
def moveScenario : MoveWorld :=
  { grid_width := 80, grid_height := 80, player := 0,
    positions := [(0, ⟨5, 5⟩), (1, ⟨5, 6⟩)],
    velocities := [(0, ⟨0, 1⟩)],
    blocks_movement := [0, 1],
    doors := [], provides_full_healing := [], provides_supplies := [],
    health := [(0, ⟨50, 50⟩)],
    enemy := [],
    toggle_door := [], wants_rest := [], wants_trade := [], wants_attack := [] }

/-! ## Projectile damage (`ShootingSystem.update`, `MagicSystem.update`)

Ammunition types (Python strings) are modelled as `Nat` tags. -/

/-- The shooter's world slice read by `ShootingSystem.update` while
processing one `WantsToShoot` intent. -/
structure ShootWorld where
  /-- the shooter's `Equipment.slots` -/
  equipment_slots : Dict EquipSlot Entity
  /-- the shooter's `Inventory.items` (in order) -/
  inventory : List Entity
  /-- the shooter's `CombatStats.power` -/
  combat_power : Int
  /-- the `Ammunition` pool (`ammo_type` per item) -/
  ammunition : Dict Entity Nat
  /-- the `InflictsDamage` pool (`damage` per item) -/
  inflicts_damage : Dict Entity Int
  /-- the `Equippable` pool -/
  equippable : Dict Entity EquippableC
  /-- the `RequiresAmmunition` pool (`ammo_type` per weapon) -/
  requires_ammunition : Dict Entity Nat

/-- `next((item_id for item_id in inventory.items if ...Ammunition... ==
ammo_req.ammo_type), None)`: the first carried item whose `Ammunition`
matches the weapon's required type. -/
def first_matching_ammo (inv : List Entity) (ammo : Dict Entity Nat) (t : Nat) :
    Option Entity :=
  inv.find? (fun i =>
    match ammo.get i with
    | some ty => ty == t
    | none => false)

/-- The raw damage of the arrow projectile created by
`ShootingSystem.update` (systems.py lines 288–311):
`total_damage = (attacker_stats.power // 2) + weapon_stats.power_bonus +
arrow_damage`.  `none` models the paths where the Python code would fail
(no equipped weapon / no matching ammunition / missing components). -/
def shooting_projectile_damage (w : ShootWorld) : Option Int := do
  let weapon ← w.equipment_slots.get EquipSlot.weapon
  let ammoTy ← w.requires_ammunition.get weapon
  let arrow ← first_matching_ammo w.inventory w.ammunition ammoTy
  let arrowDamage ← w.inflicts_damage.get arrow
  let weaponStats ← w.equippable.get weapon
  pure (Int.fdiv w.combat_power 2 + weaponStats.power_bonus + arrowDamage)

/-- The raw damage of the spell projectile created by `MagicSystem.update`
(systems.py line 345): `total_damage = spell.damage +
(caster_stats.power // 2 if caster_stats else 0)`.  The caster's
`Equipment` is never read. -/
def magic_projectile_damage (spell_damage : Int) (caster_power : Option Int) : Int :=
  spell_damage + (match caster_power with
                  | some p => Int.fdiv p 2
                  | none => 0)

/-- A shot by an attacker with base power 5 from a weapon with
`power_bonus = 2`, using an arrow with listed damage 3. -/
def shootCex : ShootWorld :=
  { equipment_slots := [(EquipSlot.weapon, 10)]
    inventory := [11]
    combat_power := 5
    ammunition := [(11, 0)]
    inflicts_damage := [(11, 3)]
    equippable := [(10, { slot := EquipSlot.weapon, power_bonus := 2, defense_bonus := 0 })]
    requires_ammunition := [(10, 0)] }

/-! ## Melee combat (`MeleeCombatSystem.update`, systems.py lines 770–813) -/

inductive MeleeLog
  | hit (damage : Int)
  | noDamage
deriving DecidableEq, Repr

/-- `for item_id in equipment.slots.values(): ...` — add the
`power_bonus` of every equipped item carrying `Equippable`. -/
def equipment_power_bonus (slots : Dict EquipSlot Entity)
    (equippable : Dict Entity EquippableC) (base : Int) : Int :=
  (slots.map Prod.snd).foldl (fun acc item =>
    match equippable.get item with
    | some eqc => acc + eqc.power_bonus
    | none => acc) base

/-- Same loop for the target's `defense_bonus`. -/
def equipment_defense_bonus (slots : Dict EquipSlot Entity)
    (equippable : Dict Entity EquippableC) (base : Int) : Int :=
  (slots.map Prod.snd).foldl (fun acc item =>
    match equippable.get item with
    | some eqc => acc + eqc.defense_bonus
    | none => acc) base

/-- `attacker_power` after the equipment loop (`if attacker_equipment:`;
`none` = no `Equipment` component). -/
def effective_power (stats : CombatStatsC) (equipment : Option (Dict EquipSlot Entity))
    (equippable : Dict Entity EquippableC) : Int :=
  match equipment with
  | some slots => equipment_power_bonus slots equippable stats.power
  | none => stats.power

/-- `target_defense` after the equipment loop. -/
def effective_defense (stats : CombatStatsC) (equipment : Option (Dict EquipSlot Entity))
    (equippable : Dict Entity EquippableC) : Int :=
  match equipment with
  | some slots => equipment_defense_bonus slots equippable stats.defense
  | none => stats.defense

structure MeleeOutcome where
  target_health : Option HealthC
  log : List MeleeLog
deriving DecidableEq, Repr

/-- One `WantsToAttack` intent resolved by `MeleeCombatSystem.update`:
`damage = max(0, attacker_power - target_defense)`; positive damage is
applied to the target's `Health` (when present) and logged, zero damage
logs the no-damage message; missing `CombatStats` on either side skips
the attack entirely. -/
def melee_attack (attacker_stats target_stats : Option CombatStatsC)
    (attacker_equipment target_equipment : Option (Dict EquipSlot Entity))
    (equippable : Dict Entity EquippableC)
    (target_health : Option HealthC) : MeleeOutcome :=
  match attacker_stats, target_stats with
  | some ast, some tst =>
    let attacker_power := effective_power ast attacker_equipment equippable
    let target_defense := effective_defense tst target_equipment equippable
    let damage := max 0 (attacker_power - target_defense)
    if damage > 0 then
      { target_health :=
          match target_health with
          | some hp => some { hp with current := hp.current - damage }
          | none => none
        log := [MeleeLog.hit damage] }
    else
      { target_health := target_health, log := [MeleeLog.noDamage] }
  | _, _ => { target_health := target_health, log := [] }

/-! ## Item use, healing branch (`ItemUseSystem.update`, systems.py 624–685) -/

inductive HealLog
  | healed (amount : Int)
  | alreadyFull
deriving DecidableEq, Repr

structure HealOutcome where
  health : HealthC
  inventory : List Entity
  destroyed : List Entity
  log : List HealLog
  intent_removed : Bool
deriving DecidableEq, Repr

/-- One `WantsToUseItem` intent naming a `ProvidesHealing` item,
including the guard that just drops the intent when the item is not in
the user's inventory (`inventory.items.remove` takes the first
occurrence, as `List.erase` does). -/
def heal_item_use (user_health : HealthC) (inventory : List Entity)
    (item : Entity) (amount : Int) : HealOutcome :=
  if item ∈ inventory then
    if user_health.current < user_health.max then
      { health := { user_health with
                    current := min user_health.max (user_health.current + amount) }
        inventory := inventory.erase item
        destroyed := [item]
        log := [HealLog.healed amount]
        intent_removed := true }
    else
      { health := user_health, inventory := inventory, destroyed := [],
        log := [HealLog.alreadyFull], intent_removed := true }
  else
    { health := user_health, inventory := inventory, destroyed := [], log := [],
      intent_removed := true }

/-! ## Targeting confirm (`TargetingSystem.update`, systems.py 494–536)

The left-click confirm handling while a `Targeting` component is active:
`tx ty` is the resolved target tile
`line_path[min(len(line_path) - 1, target_range)]`. -/

inductive TPurpose
  | throwing
  | shooting
  | casting
deriving DecidableEq, Repr

inductive TIntent
  | wantsToThrow (item : Option Entity) (x y : Int)
  | wantsToShoot (target : Entity)
  | wantsToCastSpell (target : Entity)
deriving DecidableEq, Repr

inductive TLog
  | mustTargetCreature
  | cantCastNow
  | notEnoughMana
deriving DecidableEq, Repr

structure ConfirmState where
  /-- `targeting_component.purpose` -/
  purpose : TPurpose
  /-- `targeting_component.item` -/
  item : Option Entity
  /-- `targeting_component.spell` -/
  spell : Option SpellC
  /-- the player's `Mana` component -/
  mana : Option ManaC
  /-- the player's `OnCooldown.turns` -/
  cooldown : Option Int
  /-- the first entity with `Position` and `Health` at the target tile -/
  target_at_cell : Option Entity
  /-- `world.turn` -/
  turn : Nat
deriving DecidableEq, Repr

structure ConfirmOutcome where
  /-- whether `Targeting` is still attached to the player afterwards -/
  targeting_active : Bool
  turn : Nat
  player_took_turn : Bool
  intent : Option TIntent
  mana : Option ManaC
  cooldown : Option Int
  log : List TLog
deriving DecidableEq, Repr

/-- One confirmed left click (systems.py 496–533).  Note the shoot/cast
branches with no creature at the tile `return` before the
`world.components[Targeting].pop(player, None)` line, while the cast
branches failing the spell/mana/cooldown checks fall through to it. -/
def targeting_confirm (st : ConfirmState) (tx ty : Int) : ConfirmOutcome :=
  match st.purpose with
  | TPurpose.throwing =>
      { targeting_active := false, turn := st.turn + 1, player_took_turn := true,
        intent := some (TIntent.wantsToThrow st.item tx ty),
        mana := st.mana, cooldown := st.cooldown, log := [] }
  | TPurpose.shooting =>
      match st.target_at_cell with
      | some t =>
          { targeting_active := false, turn := st.turn + 1, player_took_turn := true,
            intent := some (TIntent.wantsToShoot t),
            mana := st.mana, cooldown := st.cooldown, log := [] }
      | none =>
          { targeting_active := true, turn := st.turn, player_took_turn := false,
            intent := none, mana := st.mana, cooldown := st.cooldown,
            log := [TLog.mustTargetCreature] }
  | TPurpose.casting =>
      match st.spell, st.mana, st.cooldown with
      | some spell, some mana, some cd =>
          if mana.current < spell.mana_cost then
            { targeting_active := false, turn := st.turn, player_took_turn := false,
              intent := none, mana := some mana, cooldown := some cd,
              log := [TLog.notEnoughMana] }
          else
            match st.target_at_cell with
            | some t =>
                { targeting_active := false, turn := st.turn + 1, player_took_turn := true,
                  intent := some (TIntent.wantsToCastSpell t),
                  mana := some { mana with current := mana.current - spell.mana_cost },
                  cooldown := some spell.cooldown, log := [] }
            | none =>
                { targeting_active := true, turn := st.turn, player_took_turn := false,
                  intent := none, mana := some mana, cooldown := some cd,
                  log := [TLog.mustTargetCreature] }
      | _, _, _ =>
          { targeting_active := false, turn := st.turn, player_took_turn := false,
            intent := none, mana := st.mana, cooldown := st.cooldown,
            log := [TLog.cantCastNow] }

/-- A cast confirm over an empty cell by a player whose mana (1) is below
the spell's cost (4). -/
def castCexState : ConfirmState :=
  { purpose := TPurpose.casting, item := none,
    spell := some ⟨6, 5, 2, 4⟩, mana := some ⟨1, 20⟩, cooldown := some 0,
    target_at_cell := none, turn := 3 }

/-! ## Enemy AI (`EnemyAISystem.update`, systems.py 169–279)

One enemy's per-turn decision.  Exact-arithmetic translations of the
Python float comparisons: `current <= max / 4` is `4 * current ≤ max`,
and `((dx)**2 + (dy)**2) ** 0.5 <= r` with integer `r` is
`dx^2 + dy^2 ≤ r^2` (the square root is correctly rounded and monotone,
exact at game-scale magnitudes). -/

structure AIWorld where
  player_pos : PositionC
  /-- cells of `world.visibility_map` holding 2 (currently visible) -/
  visible_cells : List (Int × Int)
  /-- cells with `world.game_map == 1` (walls), for spell line of sight -/
  wall_cells : List (Int × Int)
  /-- items carrying `ProvidesHealing` -/
  provides_healing : List Entity
  /-- the `RequiresAmmunition` pool (`ammo_type` per weapon) -/
  requires_ammunition : Dict Entity Nat
  /-- the `Ranged` pool (`range` per weapon) -/
  ranged : Dict Entity Int
  /-- the `Ammunition` pool (`ammo_type` per item) -/
  ammunition : Dict Entity Nat
  /-- the two `random.randint(-1, 1)` draws of the wander branch -/
  rng_dx : Int
  rng_dy : Int
deriving Repr

structure EnemyState where
  pos : PositionC
  health : HealthC
  /-- `OnCooldown.turns`, when the component is present -/
  cooldown : Option Int
  /-- whether `WantsToFlee` is attached -/
  fleeing : Bool
  /-- `Inventory.items`, when the component is present -/
  inventory : Option (List Entity)
  mana : Option ManaC
  spell : Option SpellC
  /-- `Equipment.slots`, when the component is present -/
  equipment : Option (Dict EquipSlot Entity)
deriving Repr

inductive AIIntent
  | useItem (item : Entity)
  | castSpell
  | shoot
deriving DecidableEq, Repr

structure AIOutcome where
  vel : VelocityC
  /-- whether `WantsToFlee` is attached afterwards -/
  fleeing : Bool
  cooldown : Option Int
  mana : Option ManaC
  intent : Option AIIntent
deriving DecidableEq, Repr

/-- `0 if d == 0 else -d // abs(d)` — one step away from the player. -/
def step_away (d : Int) : Int :=
  if d = 0 then 0 else Int.fdiv (-d) (Int.natAbs d : Int)

/-- `0 if d == 0 else d // abs(d)` — one step toward the player. -/
def step_toward (d : Int) : Int :=
  if d = 0 then 0 else Int.fdiv d (Int.natAbs d : Int)

/-- Squared distance from the enemy to the player. -/
def ai_dist_sq (w : AIWorld) (st : EnemyState) : Int :=
  (w.player_pos.x - st.pos.x) ^ 2 + (w.player_pos.y - st.pos.y) ^ 2

/-- `for x, y in line_of_sight[1:-1]: if world.game_map[y, x] == 1` —
no wall cell strictly between caster and target on the discrete line. -/
def path_is_clear (walls : List (Int × Int)) (x0 y0 x1 y1 : Int) : Bool :=
  (((bresenham_line x0 y0 x1 y1).drop 1).dropLast).all
    (fun c => !(decide (c ∈ walls)))

/-- The ranged-fire condition (systems.py 256–267): an equipped weapon
(Python truthiness: entity id 0 is falsy) with `RequiresAmmunition` and
`Ranged`, the player within range, and a matching arrow carried. -/
def ai_shoot_condition (w : AIWorld) (st : EnemyState) : Bool :=
  match st.equipment with
  | some slots =>
    match slots.get EquipSlot.weapon with
    | some weapon =>
      if weapon = 0 then false
      else
        match w.requires_ammunition.get weapon with
        | some need =>
          match w.ranged.get weapon with
          | some r =>
            decide (ai_dist_sq w st ≤ r ^ 2) &&
              (match st.inventory with
               | some items =>
                 items.any (fun i =>
                   match w.ammunition.get i with
                   | some ty => ty == need
                   | none => false)
               | none => false)
          | none => false
        | none => false
    | none => false
  | none => false

/-- The cooldown decrement at the top of the loop (systems.py 194–196):
`if cooldown and cooldown.turns > 0: cooldown.turns -= 1`. -/
def ai_cooldown_after_tick (cooldown : Option Int) : Option Int :=
  match cooldown with
  | some t => some (if t > 0 then t - 1 else t)
  | none => none

/-- The spell-cast condition (systems.py 234–249) against the
already-decremented cooldown: spell, cooldown and mana components
present, cooldown expired, mana sufficient, player in range, and a clear
line of sight. -/
def ai_cast_ready (w : AIWorld) (st : EnemyState) (cooldown1 : Option Int) : Bool :=
  match st.spell, cooldown1, st.mana with
  | some spell, some cd, some mana =>
    decide (cd ≤ 0 ∧ spell.mana_cost ≤ mana.current ∧
      ai_dist_sq w st ≤ spell.range ^ 2 ∧
      path_is_clear w.wall_cells st.pos.x st.pos.y
        w.player_pos.x w.player_pos.y = true)
  | _, _, _ => false

/-- The spell-then-ranged-then-melee engagement chain run when the player
is visible and the enemy is not handling low health (systems.py
232–275). -/
def ai_engage (w : AIWorld) (st : EnemyState) (cooldown1 : Option Int)
    (fleeing2 : Bool) : AIOutcome :=
  let dx := w.player_pos.x - st.pos.x
  let dy := w.player_pos.y - st.pos.y
  let ranged_or_melee : AIOutcome :=
    if ai_shoot_condition w st then
      { vel := ⟨0, 0⟩, fleeing := fleeing2, cooldown := cooldown1,
        mana := st.mana, intent := some AIIntent.shoot }
    else
      { vel := ⟨step_toward dx, step_toward dy⟩, fleeing := fleeing2,
        cooldown := cooldown1, mana := st.mana, intent := none }
  match st.spell, cooldown1, st.mana with
  | some spell, some cd, some mana =>
    if cd ≤ 0 ∧ spell.mana_cost ≤ mana.current ∧
        ai_dist_sq w st ≤ spell.range ^ 2 ∧
        path_is_clear w.wall_cells st.pos.x st.pos.y
          w.player_pos.x w.player_pos.y = true then
      { vel := ⟨0, 0⟩, fleeing := fleeing2, cooldown := some spell.cooldown,
        mana := some ⟨mana.current - spell.mana_cost, mana.max⟩,
        intent := some AIIntent.castSpell }
    else ranged_or_melee
  | _, _, _ => ranged_or_melee

/-- One enemy's decision for the turn (the body of the
`EnemyAISystem.update` loop).  The cooldown decrement happens first; the
heal-or-flee branch runs when the player is visible and health is low;
the continue-fleeing branch's guard can then never hold (its `else` is
dead code, kept faithfully); otherwise engage or wander. -/
def enemy_ai_step (w : AIWorld) (st : EnemyState) : AIOutcome :=
  let cooldown1 := ai_cooldown_after_tick st.cooldown
  let visible := (st.pos.x, st.pos.y) ∈ w.visible_cells
  let low := 4 * st.health.current ≤ st.health.max
  let dx := w.player_pos.x - st.pos.x
  let dy := w.player_pos.y - st.pos.y
  let fleeOutcome : AIOutcome :=
    { vel := ⟨step_away dx, step_away dy⟩, fleeing := true,
      cooldown := cooldown1, mana := st.mana, intent := none }
  if visible ∧ low then
    match st.inventory with
    | some items =>
      match items.find? (fun i => decide (i ∈ w.provides_healing)) with
      | some potion =>
        -- Python `if potion_to_use:` — entity id 0 is falsy
        if potion = 0 then fleeOutcome
        else
          { vel := ⟨0, 0⟩, fleeing := st.fleeing, cooldown := cooldown1,
            mana := st.mana, intent := some (AIIntent.useItem potion) }
      | none => fleeOutcome
    | none => fleeOutcome
  else
    if st.fleeing then
      if ¬low ∨ ¬visible then
        -- stop fleeing (delete `WantsToFlee`) and fall through
        if visible then ai_engage w st cooldown1 false
        else
          { vel := ⟨w.rng_dx, w.rng_dy⟩, fleeing := false,
            cooldown := cooldown1, mana := st.mana, intent := none }
      else
        -- `else: continue fleeing` — unreachable here (the guard
        -- contradicts the failed first branch), kept faithful to source
        { vel := ⟨step_away dx, step_away dy⟩, fleeing := st.fleeing,
          cooldown := cooldown1, mana := st.mana, intent := none }
    else
      if visible then ai_engage w st cooldown1 st.fleeing
      else
        { vel := ⟨w.rng_dx, w.rng_dy⟩, fleeing := st.fleeing,
          cooldown := cooldown1, mana := st.mana, intent := none }

/-- A fleeing, low-health enemy at (5,5) that sees the player and carries
a healing potion (item 7). -/
def aiCexWorld : AIWorld :=
  { player_pos := ⟨2, 2⟩, visible_cells := [(5, 5)], wall_cells := [],
    provides_healing := [7], requires_ammunition := [], ranged := [],
    ammunition := [], rng_dx := 0, rng_dy := 0 }

def aiCexState : EnemyState :=
  { pos := ⟨5, 5⟩, health := ⟨2, 10⟩, cooldown := none, fleeing := true,
    inventory := some [7], mana := none, spell := none, equipment := none }

/-! ## Field of view (`VisibilitySystem.update`, systems.py 95–141)

The recomputation demotes all 2s to 1, then casts one ray per cell of
the radius-R disk around the player, marking every walked cell 2 and
stopping — inclusively — at the first light-blocking cell (an entity
with `Position` and `Wall`: walls and closed doors).  All raycast writes
store the same value 2, so the written set is order-independent and is
modelled as a list of cells. -/

structure VisConfig where
  grid_width : Int
  grid_height : Int
  fov_radius : Int
deriving Repr

/-- `range(a, b)` over integers. -/
def intRange (a b : Int) : List Int :=
  (List.range (b - a).toNat).map (fun i => a + (i : Int))

/-- `_cast_ray` (systems.py 121–132): walk the Bresenham line from the
player; stop at the grid edge or past the radius, and stop inclusively
on a light-blocking cell; return the cells marked visible. -/
def cast_ray (cfg : VisConfig) (walls : List (Int × Int)) (px py : Int) :
    List (Int × Int) → List (Int × Int)
  | [] => []
  | (lx, ly) :: rest =>
    if ¬(0 ≤ lx ∧ lx < cfg.grid_width ∧ 0 ≤ ly ∧ ly < cfg.grid_height) then []
    else if (lx - px) ^ 2 + (ly - py) ^ 2 > cfg.fov_radius ^ 2 then []
    else if (lx, ly) ∈ walls then [(lx, ly)]
    else (lx, ly) :: cast_ray cfg walls px py rest

/-- The ray targets (systems.py 138–141): every cell of the `(2R+1)²`
box around the player within squared distance `R²`. -/
def fov_targets (cfg : VisConfig) (px py : Int) : List (Int × Int) :=
  (intRange (py - cfg.fov_radius) (py + cfg.fov_radius + 1)).flatMap (fun y =>
    (intRange (px - cfg.fov_radius) (px + cfg.fov_radius + 1)).filterMap (fun x =>
      if (x - px) ^ 2 + (y - py) ^ 2 ≤ cfg.fov_radius ^ 2 then some (x, y)
      else none))

/-- The set of cells assigned visibility 2 by one recomputation: the
player's own cell (written before the loop) plus every cell some cast
ray reaches. -/
def visible_cells_after (cfg : VisConfig) (walls : List (Int × Int))
    (px py : Int) : List (Int × Int) :=
  (px, py) :: (fov_targets cfg px py).flatMap (fun t =>
    cast_ray cfg walls px py (bresenham_line px py t.1 t.2))

/-- The tri-valued visibility grid after the recomputation: step 1
demotes 2 to 1 (`min (old c) 1`), step 2 writes 2 on the ray-reached
cells. -/
def visibility_after (cfg : VisConfig) (walls : List (Int × Int)) (px py : Int)
    (old : (Int × Int) → Nat) (c : Int × Int) : Nat :=
  if c ∈ visible_cells_after cfg walls px py then 2
  else min (old c) 1

/-- The default `GameConfig`: 80×80 grid, FOV radius 8. -/
def visCfg : VisConfig := { grid_width := 80, grid_height := 80, fov_radius := 8 }

/-- A single wall diagonally adjacent to the player at (10,10). -/
def visCexWalls : List (Int × Int) := [(11, 11)]

/-! ## Death handling (`DeathSystem.update`, systems.py 849–882) -/

inductive DeathLog
  | dies (victim : Entity)
  | gainExperience (amount : Int)
  | gameOver
deriving DecidableEq, Repr

/-- The world slice read and written by `DeathSystem.update`. -/
structure DWorld where
  entities : List Entity
  /-- `available_entities`, the id free list -/
  available : List Entity
  player : Entity
  running : Bool
  health : Dict Entity HealthC
  /-- the `Name` pool (only presence matters for the log) -/
  name : Dict Entity Unit
  /-- the `GivesExperience` pool (`amount`) -/
  gives_experience : Dict Entity Int
  /-- the `Experience` pool (`current_xp`; held by the player) -/
  experience : Dict Entity Int
  positions : Dict Entity PositionC
  /-- the `Inventory` pool (`items`) -/
  inventories : Dict Entity (List Entity)
  /-- items carrying `Equipped` -/
  equipped : Dict Entity Unit
  log : List DeathLog
deriving Repr

/-- `World.destroy_entity` restricted to the pools of this slice. -/
def dworld_destroy (w : DWorld) (e : Entity) : DWorld :=
  if e ∈ w.entities then
    { w with
      health := w.health.erase e
      name := w.name.erase e
      gives_experience := w.gives_experience.erase e
      experience := w.experience.erase e
      positions := w.positions.erase e
      inventories := w.inventories.erase e
      equipped := w.equipped.erase e
      entities := w.entities.filter (fun x => !(decide (x = e)))
      available := w.available ++ [e] }
  else w

/-- `--- Grant Experience ---` (systems.py 858–864): when the victim has
`GivesExperience` and the player has `Experience`, add the amount. -/
def grant_xp (w : DWorld) (e : Entity) : DWorld :=
  match w.gives_experience.get e, w.experience.get w.player with
  | some g, some xp =>
    { w with experience := w.experience.set w.player (xp + g),
             log := w.log ++ [DeathLog.gainExperience g] }
  | _, _ => w

/-- The loot-drop loop body: unequip each carried item, then give it the
victim's position. -/
def drop_items (eqd : Dict Entity Unit) (posd : Dict Entity PositionC)
    (items : List Entity) (p : PositionC) :
    Dict Entity Unit × Dict Entity PositionC :=
  items.foldl (fun acc i => (acc.1.erase i, acc.2.set i p)) (eqd, posd)

/-- `--- New Loot Drop Logic ---` (systems.py 866–876): when the victim
has both `Position` and `Inventory`, drop every carried item at the
victim's cell. -/
def drop_loot (w : DWorld) (e : Entity) : DWorld :=
  match w.positions.get e, w.inventories.get e with
  | some p, some items =>
    let dropped := drop_items w.equipped w.positions items p
    { w with equipped := dropped.1, positions := dropped.2 }
  | _, _ => w

/-- The `DeathSystem.update` loop body for one snapshot entity: nothing
below health 0 is skipped; a victim's death is logged (the `Name` read
would fail on a nameless entity — modelled as a skip), experience
granted, loot dropped, and then either the termination flag is set (the
player) or the victim is destroyed. -/
def death_step (w : DWorld) (e : Entity) : DWorld :=
  match w.health.get e with
  | none => w
  | some h =>
    if h.current ≤ 0 then
      match w.name.get e with
      | none => w
      | some _ =>
        let w2 := grant_xp { w with log := w.log ++ [DeathLog.dies e] } e
        let w3 := drop_loot w2 e
        if e = w3.player then
          { w3 with log := w3.log ++ [DeathLog.gameOver], running := false }
        else dworld_destroy w3 e
    else w

/-- One `DeathSystem.update` pass over the snapshot
`list(world.get_entities_with(Health))`. -/
def death_pass (w : DWorld) : DWorld :=
  w.health.keys.foldl death_step w

/-- Whether a snapshot entity is actually death-processed this pass:
health ≤ 0 and a `Name` present (the code reads `Name.name` before
anything else, so a nameless corpse would abort the whole pass). -/
def is_processed_victim (w : DWorld) (e : Entity) : Bool :=
  (match w.health.get e with
   | some h => decide (h.current ≤ 0)
   | none => false) && (w.name.get e).isSome

/-- The entities of a snapshot sub-list that the pass death-processes,
in processing order. -/
def lvictims (w : DWorld) (l : List Entity) : List Entity :=
  l.filter (is_processed_victim w)

/-- All entities death-processed by one pass, in processing order. -/
def victims (w : DWorld) : List Entity :=
  lvictims w w.health.keys

/-- The experience one death grants the player: the victim's
`GivesExperience.amount`, or 0 when the component is absent. -/
def xp_award (w : DWorld) (e : Entity) : Int :=
  match w.gives_experience.get e with
  | some g => g
  | none => 0

/-- Total experience granted over a snapshot sub-list. -/
def lxp_total (w : DWorld) (l : List Entity) : Int :=
  ((lvictims w l).map (xp_award w)).sum

/-- Total experience granted by one pass. -/
def xp_total (w : DWorld) : Int :=
  lxp_total w w.health.keys

/-- A multi-death world: the player (entity 0, 10 xp) is alive; a goblin
(entity 5, 0 hp, worth 35 xp, at (4,4)) carries an equipped item
(entity 9); a skeleton (entity 6, −2 hp, worth 50 xp, at (7,7)) has no
`Inventory` at all. -/
def deathCex : DWorld :=
  { entities := [0, 5, 6, 9]
    available := []
    player := 0
    running := true
    health := [(0, ⟨50, 50⟩), (5, ⟨0, 10⟩), (6, ⟨-2, 12⟩)]
    name := [(0, ()), (5, ()), (6, ())]
    gives_experience := [(5, 35), (6, 50)]
    experience := [(0, 10)]
    positions := [(0, ⟨1, 1⟩), (5, ⟨4, 4⟩), (6, ⟨7, 7⟩)]
    inventories := [(5, [9])]
    equipped := [(9, ())]
    log := [] }

/-! ## Pipeline registration order (`generate_world`, main.py 151–185)

One "pipeline pass" is one `World.update()` call: every system runs once
in registration order.  Which system creates which one-shot intent and
which deletes it is read off `systems.py` (creation sites were also
checked exhaustively with a search over the sources). -/

inductive SystemId
  | input
  | projectile
  | playerControl
  | inventoryMenu
  | characterScreen
  | helpScreen
  | equipSystem
  | targeting
  | magic
  | rangedCombat
  | poison
  | enemyAI
  | movement
  | door
  | itemPickup
  | trap
  | shooting
  | melee
  | itemUse
  | resting
  | trading
  | dropItem
  | death
  | levelUp
  | nextLevel
  | visibility
  | render
deriving DecidableEq, Repr, Fintype

/-- The exact `world.add_system(...)` order of `generate_world`. -/
def pipeline_order : List SystemId :=
  [SystemId.input, SystemId.projectile, SystemId.playerControl,
   SystemId.inventoryMenu, SystemId.characterScreen, SystemId.helpScreen,
   SystemId.equipSystem, SystemId.targeting, SystemId.magic,
   SystemId.rangedCombat, SystemId.poison, SystemId.enemyAI,
   SystemId.movement, SystemId.door, SystemId.itemPickup, SystemId.trap,
   SystemId.shooting, SystemId.melee, SystemId.itemUse, SystemId.resting,
   SystemId.trading, SystemId.dropItem, SystemId.death, SystemId.levelUp,
   SystemId.nextLevel, SystemId.visibility, SystemId.render]

/-- The eight one-shot intent component kinds of the claim. -/
inductive IntentKind
  | wantsToAttack
  | wantsToUseItem
  | wantsToShoot
  | wantsToCastSpell
  | wantsToThrow
  | wantsToEquip
  | wantsToDropItem
  | toggleDoorState
deriving DecidableEq, Repr, Fintype

/-- The systems that `add_component` each intent kind
(systems.py lines 69, 82, 208, 250, 268, 500, 507, 527, 952, 959, 965). -/
def intent_producers : IntentKind → List SystemId
  | IntentKind.wantsToAttack => [SystemId.movement]
  | IntentKind.wantsToUseItem => [SystemId.enemyAI, SystemId.inventoryMenu]
  | IntentKind.wantsToShoot => [SystemId.enemyAI, SystemId.targeting]
  | IntentKind.wantsToCastSpell => [SystemId.enemyAI, SystemId.targeting]
  | IntentKind.wantsToThrow => [SystemId.targeting]
  | IntentKind.wantsToEquip => [SystemId.inventoryMenu]
  | IntentKind.wantsToDropItem => [SystemId.inventoryMenu]
  | IntentKind.toggleDoorState => [SystemId.movement]

/-- The unique system that deletes each intent kind from its pool. -/
def intent_consumer : IntentKind → SystemId
  | IntentKind.wantsToAttack => SystemId.melee
  | IntentKind.wantsToUseItem => SystemId.itemUse
  | IntentKind.wantsToShoot => SystemId.shooting
  | IntentKind.wantsToCastSpell => SystemId.magic
  | IntentKind.wantsToThrow => SystemId.rangedCombat
  | IntentKind.wantsToEquip => SystemId.equipSystem
  | IntentKind.wantsToDropItem => SystemId.dropItem
  | IntentKind.toggleDoorState => SystemId.door

/-- Position of a system in the registration order. -/
def sysIdx (s : SystemId) : Nat := pipeline_order.indexOf s

/-! # Theorems -/

namespace Dict

variable {κ α : Type} [DecidableEq κ]

theorem get_set_self (d : Dict κ α) (e : κ) (v : α) : (d.set e v).get e = some v := by
  induction d with
  | nil => simp [set, get]
  | cons kv rest ih =>
    obtain ⟨k, w⟩ := kv
    by_cases h : k = e
    · simp [set, get, h]
    · simp [set, get, h, ih]

theorem get_set_ne (d : Dict κ α) (e x : κ) (v : α) (h : x ≠ e) :
    (d.set e v).get x = d.get x := by
  have hex : ¬(e = x) := fun hh => h hh.symm
  induction d with
  | nil => simp [set, get, hex]
  | cons kv rest ih =>
    obtain ⟨k, w⟩ := kv
    by_cases hk : k = e
    · subst hk
      simp [set, get, hex]
    · by_cases hx : k = x
      · subst hx
        simp [set, get, hk]
      · simp [set, get, hk, hx, ih]

theorem get_erase_self (d : Dict κ α) (e : κ) : (d.erase e).get e = none := by
  induction d with
  | nil => simp [erase, get]
  | cons kv rest ih =>
    obtain ⟨k, w⟩ := kv
    by_cases h : k = e
    · simpa [erase, get, h] using ih
    · simpa [erase, List.filter, get, h] using ih

theorem get_erase_ne (d : Dict κ α) (e x : κ) (h : x ≠ e) :
    (d.erase e).get x = d.get x := by
  induction d with
  | nil => simp [erase, get]
  | cons kv rest ih =>
    obtain ⟨k, w⟩ := kv
    by_cases hk : k = e
    · subst hk
      have hkx : ¬(k = x) := fun hh => h (hh.symm ▸ rfl)
      simpa [erase, List.filter, get, hkx] using ih
    · by_cases hx : k = x
      · subst hx
        simp [erase, List.filter, get, fun hh : k = e => h hh]
      · simpa [erase, List.filter, hk, get, hx] using ih

end Dict

theorem getLast?_append_singleton {α : Type} (l : List α) (a : α) :
    (l ++ [a]).getLast? = some a := by
  induction l with
  | nil => rfl
  | cons x xs ih =>
    rw [List.cons_append, List.getLast?_cons, ih]
    rfl

/-- C8: for any live entity, after `destroy_entity` its id is absent from
every component pool and from the live set, and that id is the next id
returned by `create_entity` — reused before any never-issued id. -/
theorem C8_destroy_frees_id_for_immediate_reuse {V : Type} (s : Store V) (e : Entity)
    (h : e ∈ s.entities) :
    (∀ p ∈ (destroy_entity s e).components, p.get e = none) ∧
    e ∉ (destroy_entity s e).entities ∧
    (create_entity (destroy_entity s e)).1 = e := by
  refine ⟨?_, ?_, ?_⟩
  · intro p hp
    simp only [destroy_entity, if_pos h] at hp
    obtain ⟨q, _, rfl⟩ := List.mem_map.mp hp
    exact Dict.get_erase_self q e
  · simp [destroy_entity, if_pos h, List.mem_filter]
  · simp [destroy_entity, if_pos h, create_entity, getLast?_append_singleton]

/-- C8 witness: a concrete store with live entities 0 and 1 and one pool
holding both; destroying entity 1 purges and immediately recycles it. -/
theorem C8_destroy_frees_id_witness :
    1 ∈ (Store.mk [0, 1] 2 [] [[(0, 0), (1, 7)]] : Store Nat).entities ∧
    ((∀ p ∈ (destroy_entity (Store.mk [0, 1] 2 [] [[(0, 0), (1, 7)]] : Store Nat) 1).components,
        p.get 1 = none) ∧
      1 ∉ (destroy_entity (Store.mk [0, 1] 2 [] [[(0, 0), (1, 7)]] : Store Nat) 1).entities ∧
      (create_entity (destroy_entity (Store.mk [0, 1] 2 [] [[(0, 0), (1, 7)]] : Store Nat) 1)).1 = 1) :=
  ⟨by decide, C8_destroy_frees_id_for_immediate_reuse _ 1 (by decide)⟩

/-- C1 counterexample: the claim says every ranged shot's projectile
carries `ammo damage + (base power // 2)` with no equipped power bonus.
For a shooter with base power 5, a weapon with `power_bonus = 2`, and an
arrow listing damage 3, `ShootingSystem.update` gives the projectile
damage `5 // 2 + 2 + 3 = 7`, while the claimed figure is `3 + 5 // 2 = 5`. -/
theorem C1_counterexample :
    shooting_projectile_damage shootCex = some 7 ∧
    (3 + Int.fdiv 5 2 : Int) = 5 ∧ (7 : Int) ≠ 5 := by
  refine ⟨?_, by decide, by decide⟩
  rfl

/-- C1 amended: a spell projectile's raw damage is the spell's listed
damage plus `base power // 2`, with no equipment contribution; a ranged
shot's raw damage is the first matching arrow's listed damage plus
`base power // 2` **plus the equipped weapon's own `power_bonus`**
(other equipped items still contribute nothing). -/
theorem C1_projectile_damage_formula :
    (∀ (w : ShootWorld) (weapon arrow : Entity) (ammoTy : Nat)
        (arrowDamage : Int) (eq : EquippableC),
        w.equipment_slots.get EquipSlot.weapon = some weapon →
        w.requires_ammunition.get weapon = some ammoTy →
        first_matching_ammo w.inventory w.ammunition ammoTy = some arrow →
        w.inflicts_damage.get arrow = some arrowDamage →
        w.equippable.get weapon = some eq →
        shooting_projectile_damage w =
          some (Int.fdiv w.combat_power 2 + eq.power_bonus + arrowDamage)) ∧
    (∀ (spell_damage p : Int),
        magic_projectile_damage spell_damage (some p) = spell_damage + Int.fdiv p 2) := by
  constructor
  · intro w weapon arrow ammoTy arrowDamage eq h1 h2 h3 h4 h5
    simp [shooting_projectile_damage, h1, h2, h3, h4, h5]
  · intro sd p
    rfl

/-- C1 witness: the amended formula evaluated on the concrete shooter
`shootCex` (base power 5, weapon bonus 2, arrow damage 3 → 7). -/
theorem C1_projectile_damage_witness :
    shooting_projectile_damage shootCex = some (Int.fdiv 5 2 + 2 + 3) :=
  C1_projectile_damage_formula.1 shootCex 10 11 0 3
    { slot := EquipSlot.weapon, power_bonus := 2, defense_bonus := 0 }
    (by rfl) (by rfl) (by rfl) (by rfl) (by rfl)

/-- C2: a melee attack between two entities that both have `CombatStats`
reduces the target's health by exactly
`max 0 (effective power − effective defense)` (effective stat = base plus
the equipped items' bonuses); exactly one attack message is logged, and
when the damage is zero the target's health is unchanged — there is no
separate miss outcome. -/
theorem C2_melee_damage_formula (ast tst : CombatStatsC)
    (aeq teq : Option (Dict EquipSlot Entity))
    (equippable : Dict Entity EquippableC) (hp : HealthC) :
    (melee_attack (some ast) (some tst) aeq teq equippable (some hp)).target_health =
      some (HealthC.mk
        (hp.current - max 0 (effective_power ast aeq equippable -
                             effective_defense tst teq equippable))
        hp.max) ∧
    (melee_attack (some ast) (some tst) aeq teq equippable (some hp)).log.length = 1 ∧
    (max 0 (effective_power ast aeq equippable - effective_defense tst teq equippable) = 0 →
      (melee_attack (some ast) (some tst) aeq teq equippable (some hp)).target_health =
        some hp) := by
  by_cases h : 0 < max 0 (effective_power ast aeq equippable -
                          effective_defense tst teq equippable)
  · refine ⟨?_, ?_, ?_⟩
    · simp [melee_attack, h]
    · simp [melee_attack, h]
    · intro h0
      rw [h0] at h
      exact absurd h (lt_irrefl 0)
  · have h0 : max 0 (effective_power ast aeq equippable -
                     effective_defense tst teq equippable) = 0 :=
      le_antisymm (not_lt.mp h) (le_max_left 0 _)
    refine ⟨?_, ?_, ?_⟩
    · simp [melee_attack, h, h0]
    · simp [melee_attack, h]
    · intro _
      simp [melee_attack, h]

/-- C2 witness: attacker power 4 + weapon bonus 2, target defense 3 +
armor bonus 3 → damage `max 0 (6 − 6) = 0`; health 9 unchanged, one
message logged. -/
theorem C2_melee_damage_witness :
    (melee_attack (some ⟨4, 0⟩) (some ⟨0, 3⟩) (some [(EquipSlot.weapon, 5)])
        (some [(EquipSlot.armor, 6)])
        [(5, ⟨EquipSlot.weapon, 2, 0⟩), (6, ⟨EquipSlot.armor, 0, 3⟩)]
        (some ⟨9, 9⟩)).target_health =
      some { current := (9 : Int) - max 0 ((4 + 2) - (3 + 3)), max := 9 } ∧
    (melee_attack (some ⟨4, 0⟩) (some ⟨0, 3⟩) (some [(EquipSlot.weapon, 5)])
        (some [(EquipSlot.armor, 6)])
        [(5, ⟨EquipSlot.weapon, 2, 0⟩), (6, ⟨EquipSlot.armor, 0, 3⟩)]
        (some ⟨9, 9⟩)).log.length = 1 ∧
    (melee_attack (some ⟨4, 0⟩) (some ⟨0, 3⟩) (some [(EquipSlot.weapon, 5)])
        (some [(EquipSlot.armor, 6)])
        [(5, ⟨EquipSlot.weapon, 2, 0⟩), (6, ⟨EquipSlot.armor, 0, 3⟩)]
        (some ⟨9, 9⟩)).target_health = some ⟨9, 9⟩ := by
  have h := C2_melee_damage_formula ⟨4, 0⟩ ⟨0, 3⟩ (some [(EquipSlot.weapon, 5)])
    (some [(EquipSlot.armor, 6)])
    [(5, ⟨EquipSlot.weapon, 2, 0⟩), (6, ⟨EquipSlot.armor, 0, 3⟩)] ⟨9, 9⟩
  exact ⟨by simpa using h.1, h.2.1, h.2.2 (by decide)⟩

/-- C10: using a healing item clamps the user's health at `max` (it is
never raised above `max`); a user already at full health keeps the item
(nothing destroyed), a message is logged, and only the intent is
removed. -/
theorem C10_healing_clamped (h : HealthC) (inv : List Entity) (item : Entity)
    (amount : Int) (hmem : item ∈ inv) :
    ((heal_item_use h inv item amount).health.current ≤ h.max ∨
      (heal_item_use h inv item amount).health.current = h.current) ∧
    (h.current < h.max →
      (heal_item_use h inv item amount).health.current =
        min h.max (h.current + amount)) ∧
    (¬h.current < h.max →
      (heal_item_use h inv item amount).health = h ∧
      item ∈ (heal_item_use h inv item amount).inventory ∧
      (heal_item_use h inv item amount).destroyed = [] ∧
      (heal_item_use h inv item amount).log = [HealLog.alreadyFull]) ∧
    (heal_item_use h inv item amount).intent_removed = true := by
  by_cases hlt : h.current < h.max
  · refine ⟨Or.inl ?_, fun _ => ?_, fun hc => absurd hlt hc, ?_⟩
    · simp [heal_item_use, hmem, hlt]
    · simp [heal_item_use, hmem, hlt]
    · simp [heal_item_use, hmem, hlt]
  · refine ⟨Or.inr ?_, fun hc => absurd hc hlt, fun _ => ⟨?_, ?_, ?_, ?_⟩, ?_⟩ <;>
      simp [heal_item_use, hmem, hlt]

/-- C9 counterexample: the claim says every shoot/cast confirm over a
cell without a creature leaves `Targeting` attached.  A cast confirm over
an empty cell with mana 1 < cost 4 logs the insufficient-mana message
and *exits* targeting mode (the pop is reached), refuting the claim. -/
theorem C9_counterexample :
    castCexState.target_at_cell = none ∧
    (targeting_confirm castCexState 4 4).log = [TLog.notEnoughMana] ∧
    (targeting_confirm castCexState 4 4).targeting_active = false := by
  refine ⟨rfl, rfl, rfl⟩

/-- C9 amended: a shoot confirm over a creatureless cell always logs,
keeps `Targeting` attached and leaves the turn counter unchanged; a cast
confirm does so too *provided the spell/mana/cooldown components are
present and the mana suffices* — when those resource checks fail, the
confirm is declined with a log message, the turn counter still does not
advance, but targeting mode is exited. -/
theorem C9_empty_cell_reprompt (st : ConfirmState) (tx ty : Int) :
    (st.purpose = TPurpose.shooting → st.target_at_cell = none →
      (targeting_confirm st tx ty).targeting_active = true ∧
      (targeting_confirm st tx ty).turn = st.turn ∧
      (targeting_confirm st tx ty).player_took_turn = false ∧
      (targeting_confirm st tx ty).intent = none ∧
      (targeting_confirm st tx ty).log = [TLog.mustTargetCreature]) ∧
    (∀ (spell : SpellC) (mana : ManaC) (cd : Int),
      st.purpose = TPurpose.casting → st.spell = some spell → st.mana = some mana →
      st.cooldown = some cd → ¬mana.current < spell.mana_cost →
      st.target_at_cell = none →
      (targeting_confirm st tx ty).targeting_active = true ∧
      (targeting_confirm st tx ty).turn = st.turn ∧
      (targeting_confirm st tx ty).player_took_turn = false ∧
      (targeting_confirm st tx ty).intent = none ∧
      (targeting_confirm st tx ty).log = [TLog.mustTargetCreature]) ∧
    (st.purpose = TPurpose.casting →
      (st.spell = none ∨ st.mana = none ∨ st.cooldown = none) →
      (targeting_confirm st tx ty).targeting_active = false ∧
      (targeting_confirm st tx ty).turn = st.turn ∧
      (targeting_confirm st tx ty).log = [TLog.cantCastNow]) ∧
    (∀ (spell : SpellC) (mana : ManaC) (cd : Int),
      st.purpose = TPurpose.casting → st.spell = some spell → st.mana = some mana →
      st.cooldown = some cd → mana.current < spell.mana_cost →
      (targeting_confirm st tx ty).targeting_active = false ∧
      (targeting_confirm st tx ty).turn = st.turn ∧
      (targeting_confirm st tx ty).log = [TLog.notEnoughMana]) := by
  refine ⟨?_, ?_, ?_, ?_⟩
  · intro hp ht
    simp [targeting_confirm, hp, ht]
  · intro spell mana cd hp hs hm hc hlt ht
    simp [targeting_confirm, hp, hs, hm, hc, hlt, ht]
  · intro hp hmiss
    rcases hmiss with hs | hm | hc <;>
      · cases hsp : st.spell <;> cases hma : st.mana <;> cases hcd : st.cooldown <;>
          simp_all [targeting_confirm, hp]
  · intro spell mana cd hp hs hm hc hlt
    simp [targeting_confirm, hp, hs, hm, hc, hlt]

/-- C9 witness: a shoot confirm over an empty cell at turn 5 re-prompts
without leaving targeting and without advancing the turn. -/
theorem C9_empty_cell_reprompt_witness :
    (ConfirmState.mk TPurpose.shooting none none none none none 5).purpose =
        TPurpose.shooting ∧
    ((targeting_confirm (ConfirmState.mk TPurpose.shooting none none none none none 5)
        2 2).targeting_active = true ∧
      (targeting_confirm (ConfirmState.mk TPurpose.shooting none none none none none 5)
        2 2).turn = 5 ∧
      (targeting_confirm (ConfirmState.mk TPurpose.shooting none none none none none 5)
        2 2).player_took_turn = false ∧
      (targeting_confirm (ConfirmState.mk TPurpose.shooting none none none none none 5)
        2 2).intent = none ∧
      (targeting_confirm (ConfirmState.mk TPurpose.shooting none none none none none 5)
        2 2).log = [TLog.mustTargetCreature]) :=
  ⟨rfl, (C9_empty_cell_reprompt
    (ConfirmState.mk TPurpose.shooting none none none none none 5) 2 2).1 rfl rfl⟩

/-- C4: a mover whose target cell is out of bounds, or occupied by a
blocking entity, keeps its exact `Position` pool entry; a blocking target
is classified in order — door → toggle-door intent on the door,
full-healing NPC → rest intent, trading NPC → trade intent,
`Health`-bearing entity → attack intent unless mover and target are both
`Enemy` (in which case nothing at all happens).  In particular, the
player at (5,5) with intent (0,1) against a wall at (5,6) is still at
(5,5) after the full movement pass. -/
theorem C4_blocked_mover_does_not_move :
    (∀ (w : MoveWorld) (blockers : Dict (Int × Int) Entity) (e : Entity)
        (pos : PositionC) (vel : VelocityC),
      w.positions.get e = some pos → w.velocities.get e = some vel →
      ¬(vel.dx = 0 ∧ vel.dy = 0) →
      (¬(0 ≤ pos.x + vel.dx ∧ pos.x + vel.dx < w.grid_width ∧
          0 ≤ pos.y + vel.dy ∧ pos.y + vel.dy < w.grid_height) →
        move_step w blockers e = (w, blockers)) ∧
      (∀ tid : Entity,
        (0 ≤ pos.x + vel.dx ∧ pos.x + vel.dx < w.grid_width ∧
          0 ≤ pos.y + vel.dy ∧ pos.y + vel.dy < w.grid_height) →
        blockers.get (pos.x + vel.dx, pos.y + vel.dy) = some tid →
        (move_step w blockers e).1.positions = w.positions ∧
        (move_step w blockers e).2 = blockers ∧
        (tid ∈ w.doors →
          (move_step w blockers e).1 =
            { w with toggle_door := setAdd w.toggle_door tid }) ∧
        (tid ∉ w.doors → tid ∈ w.provides_full_healing →
          (move_step w blockers e).1 =
            { w with wants_rest := setAdd w.wants_rest e }) ∧
        (tid ∉ w.doors → tid ∉ w.provides_full_healing →
          tid ∈ w.provides_supplies →
          (move_step w blockers e).1 =
            { w with wants_trade := setAdd w.wants_trade e }) ∧
        (tid ∉ w.doors → tid ∉ w.provides_full_healing →
          tid ∉ w.provides_supplies → (w.health.get tid).isSome = true →
          ¬(e ∈ w.enemy ∧ tid ∈ w.enemy) →
          (move_step w blockers e).1 =
            { w with wants_attack := w.wants_attack.set e tid }) ∧
        (tid ∉ w.doors → tid ∉ w.provides_full_healing →
          tid ∉ w.provides_supplies → (w.health.get tid).isSome = true →
          e ∈ w.enemy ∧ tid ∈ w.enemy →
          (move_step w blockers e).1 = w))) ∧
    (movement_pass moveScenario).positions.get 0 = some ⟨5, 5⟩ := by
  constructor
  · intro w blockers e pos vel hpos hvel hnz
    constructor
    · intro hoob
      simp [move_step, hpos, hvel, hnz, hoob]
    · intro tid hin htid
      by_cases h1 : tid ∈ w.doors <;>
        by_cases h2 : tid ∈ w.provides_full_healing <;>
          by_cases h3 : tid ∈ w.provides_supplies <;>
            by_cases h4 : (w.health.get tid).isSome = true <;>
              by_cases h5 : e ∈ w.enemy ∧ tid ∈ w.enemy <;>
                simp [move_step, hpos, hvel, hnz, hin, htid, h1, h2, h3, h4, h5]
  · decide

/-- C4 witness: the scenario world itself — entity 0 at (5,5) moving
(0,1) into the wall (entity 1) at (5,6): the position pool and the
blocker snapshot are untouched. -/
theorem C4_blocked_mover_witness :
    moveScenario.positions.get 0 = some ⟨5, 5⟩ ∧
    moveScenario.velocities.get 0 = some ⟨0, 1⟩ ∧
    (blocker_locations moveScenario).get (5 + 0, 5 + 1) = some 1 ∧
    (move_step moveScenario (blocker_locations moveScenario) 0).1.positions =
      moveScenario.positions ∧
    (move_step moveScenario (blocker_locations moveScenario) 0).2 =
      blocker_locations moveScenario :=
  ⟨by decide, by decide, by decide,
    ((C4_blocked_mover_does_not_move.1 moveScenario (blocker_locations moveScenario)
        0 ⟨5, 5⟩ ⟨0, 1⟩ (by decide) (by decide) (by decide)).2 1
        (by decide) (by decide)).1,
    ((C4_blocked_mover_does_not_move.1 moveScenario (blocker_locations moveScenario)
        0 ⟨5, 5⟩ ⟨0, 1⟩ (by decide) (by decide) (by decide)).2 1
        (by decide) (by decide)).2.1⟩

theorem Dict.mem_keys_iff_get {κ α : Type} [DecidableEq κ] (d : Dict κ α) (k : κ) :
    k ∈ d.keys ↔ ∃ x, d.get k = some x := by
  induction d with
  | nil => simp [Dict.keys, Dict.get]
  | cons kv rest ih =>
    obtain ⟨a, b⟩ := kv
    by_cases h : a = k
    · subst h
      refine ⟨fun _ => ⟨b, ?_⟩, fun _ => ?_⟩
      · show (if a = a then some b else Dict.get rest a) = some b
        rw [if_pos rfl]
      · show a ∈ a :: Dict.keys rest
        exact List.mem_cons_self a _
    · have h2 : ¬(k = a) := fun hh => h hh.symm
      have hkeys : Dict.keys ((a, b) :: rest) = a :: Dict.keys rest := rfl
      have hget : Dict.get ((a, b) :: rest) k = Dict.get rest k := by
        show (if a = k then some b else Dict.get rest k) = Dict.get rest k
        rw [if_neg h]
      rw [hkeys, hget, List.mem_cons]
      simp only [h2, false_or]
      exact ih

theorem grant_xp_fields (w : DWorld) (e : Entity) :
    (grant_xp w e).health = w.health ∧
    (grant_xp w e).name = w.name ∧
    (grant_xp w e).positions = w.positions ∧
    (grant_xp w e).inventories = w.inventories ∧
    (grant_xp w e).equipped = w.equipped ∧
    (grant_xp w e).entities = w.entities ∧
    (grant_xp w e).available = w.available ∧
    (grant_xp w e).running = w.running ∧
    (grant_xp w e).player = w.player ∧
    (grant_xp w e).gives_experience = w.gives_experience := by
  unfold grant_xp
  split <;> exact ⟨rfl, rfl, rfl, rfl, rfl, rfl, rfl, rfl, rfl, rfl⟩

theorem drop_loot_fields (w : DWorld) (e : Entity) :
    (drop_loot w e).health = w.health ∧
    (drop_loot w e).name = w.name ∧
    (drop_loot w e).experience = w.experience ∧
    (drop_loot w e).gives_experience = w.gives_experience ∧
    (drop_loot w e).inventories = w.inventories ∧
    (drop_loot w e).entities = w.entities ∧
    (drop_loot w e).available = w.available ∧
    (drop_loot w e).running = w.running ∧
    (drop_loot w e).player = w.player := by
  unfold drop_loot
  split <;> exact ⟨rfl, rfl, rfl, rfl, rfl, rfl, rfl, rfl, rfl⟩

theorem drop_items_get_of_not_mem (eqd : Dict Entity Unit)
    (posd : Dict Entity PositionC) (items : List Entity) (p : PositionC)
    (i : Entity) (h : i ∉ items) :
    (drop_items eqd posd items p).1.get i = eqd.get i ∧
    (drop_items eqd posd items p).2.get i = posd.get i := by
  induction items generalizing eqd posd with
  | nil => exact ⟨rfl, rfl⟩
  | cons j rest ih =>
    have hij : i ≠ j := fun hh => h (hh ▸ List.mem_cons_self j rest)
    have hrest : i ∉ rest := fun hh => h (List.mem_cons_of_mem j hh)
    have hstep := ih (eqd.erase j) (posd.set j p) hrest
    exact ⟨hstep.1.trans (Dict.get_erase_ne _ _ _ hij),
      hstep.2.trans (Dict.get_set_ne _ _ _ _ hij)⟩

theorem drop_items_get_of_mem (eqd : Dict Entity Unit)
    (posd : Dict Entity PositionC) (items : List Entity) (p : PositionC)
    (i : Entity) (h : i ∈ items) :
    (drop_items eqd posd items p).1.get i = none ∧
    (drop_items eqd posd items p).2.get i = some p := by
  induction items generalizing eqd posd with
  | nil => simp at h
  | cons j rest ih =>
    by_cases hr : i ∈ rest
    · exact ih (eqd.erase j) (posd.set j p) hr
    · have hij : i = j := by
        rcases List.mem_cons.mp h with hh | hh
        · exact hh
        · exact absurd hh hr
      subst hij
      have hstep := drop_items_get_of_not_mem (eqd.erase i) (posd.set i p) rest p i hr
      exact ⟨hstep.1.trans (Dict.get_erase_self _ _),
        hstep.2.trans (Dict.get_set_self _ _ _)⟩

theorem list_filter_congr {α : Type} (p q : α → Bool) (l : List α)
    (h : ∀ a ∈ l, p a = q a) : l.filter p = l.filter q := by
  induction l with
  | nil => rfl
  | cons a rest ih =>
    rw [List.filter_cons, List.filter_cons, h a (List.mem_cons_self a rest),
      ih (fun b hb => h b (List.mem_cons_of_mem a hb))]

theorem list_map_congr {α β : Type} (f g : α → β) (l : List α)
    (h : ∀ a ∈ l, f a = g a) : l.map f = l.map g := by
  induction l with
  | nil => rfl
  | cons a rest ih =>
    rw [List.map_cons, List.map_cons, h a (List.mem_cons_self a rest),
      ih (fun b hb => h b (List.mem_cons_of_mem a hb))]

theorem is_processed_victim_iff (u : DWorld) (e : Entity) :
    is_processed_victim u e = true ↔
      ∃ hc : HealthC, u.health.get e = some hc ∧ hc.current ≤ 0 ∧
        u.name.get e = some Unit.unit := by
  constructor
  · intro h
    simp only [is_processed_victim] at h
    cases hh : u.health.get e with
    | none => rw [hh] at h; simp at h
    | some hc =>
      cases hn : u.name.get e with
      | none => rw [hh, hn] at h; simp at h
      | some uu =>
        cases uu
        rw [hh, hn] at h
        simp only [Bool.and_true, Option.isSome_some, decide_eq_true_eq] at h
        exact ⟨hc, rfl, h, rfl⟩
  · rintro ⟨hc, hh, hd, hn⟩
    simp only [is_processed_victim]
    rw [hh, hn]
    simp [hd]

/-- An entity that is not a processed victim (healthy, absent from the
health pool, or nameless) leaves the world unchanged. -/
theorem death_step_skip (u : DWorld) (e : Entity)
    (h : is_processed_victim u e = false) : death_step u e = u := by
  simp only [is_processed_victim] at h
  cases hh : u.health.get e with
  | none => simp [death_step, hh]
  | some hc =>
    simp only [death_step, hh]
    by_cases hd : hc.current ≤ 0
    · rw [if_pos hd]
      cases hn : u.name.get e with
      | none => rfl
      | some uu =>
        rw [hh, hn] at h
        simp [hd] at h
    · rw [if_neg hd]

/-- Every step is a skip or the processing of a dead, named entity. -/
theorem death_step_cases (u : DWorld) (e : Entity) :
    death_step u e = u ∨
      ∃ hc : HealthC, u.health.get e = some hc ∧ hc.current ≤ 0 ∧
        u.name.get e = some Unit.unit := by
  cases hp : is_processed_victim u e with
  | false => exact Or.inl (death_step_skip u e hp)
  | true => exact Or.inr ((is_processed_victim_iff u e).mp hp)

theorem dworld_destroy_get (u : DWorld) (e f : Entity) (hne : f ≠ e) :
    (dworld_destroy u e).health.get f = u.health.get f ∧
    (dworld_destroy u e).name.get f = u.name.get f ∧
    (dworld_destroy u e).gives_experience.get f = u.gives_experience.get f ∧
    (dworld_destroy u e).experience.get f = u.experience.get f ∧
    (dworld_destroy u e).positions.get f = u.positions.get f ∧
    (dworld_destroy u e).inventories.get f = u.inventories.get f ∧
    (dworld_destroy u e).equipped.get f = u.equipped.get f := by
  unfold dworld_destroy
  split
  · exact ⟨Dict.get_erase_ne _ _ _ hne, Dict.get_erase_ne _ _ _ hne,
      Dict.get_erase_ne _ _ _ hne, Dict.get_erase_ne _ _ _ hne,
      Dict.get_erase_ne _ _ _ hne, Dict.get_erase_ne _ _ _ hne,
      Dict.get_erase_ne _ _ _ hne⟩
  · exact ⟨rfl, rfl, rfl, rfl, rfl, rfl, rfl⟩

theorem dworld_destroy_fields (u : DWorld) (e : Entity) :
    (dworld_destroy u e).player = u.player ∧
    (dworld_destroy u e).running = u.running := by
  unfold dworld_destroy
  split
  · exact ⟨rfl, rfl⟩
  · exact ⟨rfl, rfl⟩

theorem dworld_destroy_mem_ne (u : DWorld) (e f : Entity) (hne : f ≠ e)
    (h : f ∈ u.entities) : f ∈ (dworld_destroy u e).entities := by
  unfold dworld_destroy
  split
  · show f ∈ u.entities.filter (fun x => !(decide (x = e)))
    exact List.mem_filter.mpr ⟨h, by simp [hne]⟩
  · exact h

theorem dworld_destroy_entities_sub (u : DWorld) (e f : Entity)
    (h : f ∈ (dworld_destroy u e).entities) : f ∈ u.entities := by
  unfold dworld_destroy at h
  split at h
  · exact List.mem_of_mem_filter h
  · exact h

/-- `drop_loot` leaves any id outside the victim's inventory untouched. -/
theorem drop_loot_item_get (u : DWorld) (e i : Entity)
    (hni : i ∉ (u.inventories.get e).getD []) :
    (drop_loot u e).equipped.get i = u.equipped.get i ∧
    (drop_loot u e).positions.get i = u.positions.get i := by
  unfold drop_loot
  cases hpp : u.positions.get e with
  | none =>
    cases hii : u.inventories.get e <;> exact ⟨rfl, rfl⟩
  | some p =>
    cases hii : u.inventories.get e with
    | none => exact ⟨rfl, rfl⟩
    | some its =>
      rw [hii, Option.getD_some] at hni
      exact ⟨(drop_items_get_of_not_mem _ _ _ _ _ hni).1,
        (drop_items_get_of_not_mem _ _ _ _ _ hni).2⟩

/-- Processing a dead, named entity leaves every *other* entity's
health, name, experience-value and inventory entries untouched. -/
theorem death_step_processed_frame (u : DWorld) (e : Entity) (hc : HealthC)
    (hh : u.health.get e = some hc) (hd : hc.current ≤ 0)
    (hn : u.name.get e = some Unit.unit) (f : Entity) (hne : f ≠ e) :
    (death_step u e).health.get f = u.health.get f ∧
    (death_step u e).name.get f = u.name.get f ∧
    (death_step u e).gives_experience.get f = u.gives_experience.get f ∧
    (death_step u e).inventories.get f = u.inventories.get f := by
  set W : DWorld := { u with log := u.log ++ [DeathLog.dies e] } with hW
  set w2 : DWorld := grant_xp W e with hw2
  set w3 : DWorld := drop_loot w2 e with hw3
  have hstep : death_step u e =
      if e = w3.player then
        { w3 with log := w3.log ++ [DeathLog.gameOver], running := false }
      else dworld_destroy w3 e := by
    simp only [death_step, hh, hn]
    rw [if_pos hd]
  have h3a : w3.health.get f = u.health.get f := by
    rw [hw3, hw2, (drop_loot_fields _ _).1, (grant_xp_fields _ _).1]
  have h3b : w3.name.get f = u.name.get f := by
    rw [hw3, hw2, (drop_loot_fields _ _).2.1, (grant_xp_fields _ _).2.1]
  have h3c : w3.gives_experience.get f = u.gives_experience.get f := by
    rw [hw3, hw2, (drop_loot_fields _ _).2.2.2.1,
      (grant_xp_fields _ _).2.2.2.2.2.2.2.2.2]
  have h3d : w3.inventories.get f = u.inventories.get f := by
    rw [hw3, hw2, (drop_loot_fields _ _).2.2.2.2.1, (grant_xp_fields _ _).2.2.2.1]
  rw [hstep]
  by_cases hq : e = w3.player
  · rw [if_pos hq]
    exact ⟨h3a, h3b, h3c, h3d⟩
  · rw [if_neg hq]
    exact ⟨(dworld_destroy_get w3 e f hne).1.trans h3a,
      (dworld_destroy_get w3 e f hne).2.1.trans h3b,
      (dworld_destroy_get w3 e f hne).2.2.1.trans h3c,
      (dworld_destroy_get w3 e f hne).2.2.2.2.2.1.trans h3d⟩

theorem death_step_processed_player (u : DWorld) (e : Entity) (hc : HealthC)
    (hh : u.health.get e = some hc) (hd : hc.current ≤ 0)
    (hn : u.name.get e = some Unit.unit) :
    (death_step u e).player = u.player := by
  set W : DWorld := { u with log := u.log ++ [DeathLog.dies e] } with hW
  set w2 : DWorld := grant_xp W e with hw2
  set w3 : DWorld := drop_loot w2 e with hw3
  have hstep : death_step u e =
      if e = w3.player then
        { w3 with log := w3.log ++ [DeathLog.gameOver], running := false }
      else dworld_destroy w3 e := by
    simp only [death_step, hh, hn]
    rw [if_pos hd]
  have hpl3 : w3.player = u.player := by
    rw [hw3, hw2, (drop_loot_fields _ _).2.2.2.2.2.2.2.2,
      (grant_xp_fields _ _).2.2.2.2.2.2.2.2.1]
  rw [hstep]
  by_cases hq : e = w3.player
  · rw [if_pos hq]
    exact hpl3
  · rw [if_neg hq]
    exact (dworld_destroy_fields w3 e).1.trans hpl3

/-- Any death step keeps `world.player_entity`. -/
theorem death_step_player_eq (u : DWorld) (e : Entity) :
    (death_step u e).player = u.player := by
  rcases death_step_cases u e with heq | ⟨hc, hh, hd, hn⟩
  · rw [heq]
  · exact death_step_processed_player u e hc hh hd hn

/-- Any death step leaves other entities' health/name/xp-value/inventory
entries untouched. -/
theorem death_step_frame (u : DWorld) (e f : Entity) (hne : f ≠ e) :
    (death_step u e).health.get f = u.health.get f ∧
    (death_step u e).name.get f = u.name.get f ∧
    (death_step u e).gives_experience.get f = u.gives_experience.get f ∧
    (death_step u e).inventories.get f = u.inventories.get f := by
  rcases death_step_cases u e with heq | ⟨hc, hh, hd, hn⟩
  · rw [heq]
    exact ⟨rfl, rfl, rfl, rfl⟩
  · exact death_step_processed_frame u e hc hh hd hn f hne

/-- The experience grant of one processed death: the player's total
grows by the victim's award (0 when `GivesExperience` is absent). -/
theorem death_step_experience_processed (u : DWorld) (e : Entity) (hc : HealthC)
    (hh : u.health.get e = some hc) (hd : hc.current ≤ 0)
    (hn : u.name.get e = some Unit.unit) (xp : Int)
    (hx : u.experience.get u.player = some xp) :
    (death_step u e).experience.get u.player = some (xp + xp_award u e) := by
  set W : DWorld := { u with log := u.log ++ [DeathLog.dies e] } with hW
  set w2 : DWorld := grant_xp W e with hw2
  set w3 : DWorld := drop_loot w2 e with hw3
  have hstep : death_step u e =
      if e = w3.player then
        { w3 with log := w3.log ++ [DeathLog.gameOver], running := false }
      else dworld_destroy w3 e := by
    simp only [death_step, hh, hn]
    rw [if_pos hd]
  have hpl3 : w3.player = u.player := by
    rw [hw3, hw2, (drop_loot_fields _ _).2.2.2.2.2.2.2.2,
      (grant_xp_fields _ _).2.2.2.2.2.2.2.2.1]
  have hxp2 : w2.experience.get u.player = some (xp + xp_award u e) := by
    rw [hw2]
    simp only [grant_xp]
    rw [show W.experience.get W.player = some xp from hx]
    cases hg : W.gives_experience.get e with
    | some g =>
      have hag : xp_award u e = g := by
        simp only [xp_award]
        rw [show u.gives_experience.get e = some g from hg]
      rw [hag]
      exact Dict.get_set_self u.experience u.player (xp + g)
    | none =>
      have hag : xp_award u e = 0 := by
        simp only [xp_award]
        rw [show u.gives_experience.get e = none from hg]
      rw [hag, add_zero]
      exact hx
  have hxp3 : w3.experience.get u.player = some (xp + xp_award u e) := by
    rw [hw3, (drop_loot_fields _ _).2.2.1]
    exact hxp2
  rw [hstep]
  by_cases hq : e = w3.player
  · rw [if_pos hq]
    exact hxp3
  · rw [if_neg hq]
    have hpe : u.player ≠ e := fun hh2 => hq ((hpl3.trans hh2).symm)
    exact (dworld_destroy_get w3 e u.player hpe).2.2.2.1.trans hxp3

/-- One processed death drops every carried item, unequipped, at the
victim's cell. -/
theorem death_step_drops (u : DWorld) (e : Entity) (hc : HealthC)
    (hh : u.health.get e = some hc) (hd : hc.current ≤ 0)
    (hn : u.name.get e = some Unit.unit) (pv : PositionC) (its : List Entity)
    (hp : u.positions.get e = some pv) (hi : u.inventories.get e = some its)
    (i : Entity) (hie : i ≠ e) (hmem : i ∈ its) :
    (death_step u e).equipped.get i = none ∧
    (death_step u e).positions.get i = some pv := by
  set W : DWorld := { u with log := u.log ++ [DeathLog.dies e] } with hW
  set w2 : DWorld := grant_xp W e with hw2
  set w3 : DWorld := drop_loot w2 e with hw3
  have hstep : death_step u e =
      if e = w3.player then
        { w3 with log := w3.log ++ [DeathLog.gameOver], running := false }
      else dworld_destroy w3 e := by
    simp only [death_step, hh, hn]
    rw [if_pos hd]
  have hp2 : w2.positions.get e = some pv := by
    rw [hw2, (grant_xp_fields _ _).2.2.1]
    exact hp
  have hi2 : w2.inventories.get e = some its := by
    rw [hw2, (grant_xp_fields _ _).2.2.2.1]
    exact hi
  have hB : w3.equipped.get i = none ∧ w3.positions.get i = some pv := by
    rw [hw3]
    simp only [drop_loot, hp2, hi2]
    exact drop_items_get_of_mem w2.equipped w2.positions its pv i hmem
  rw [hstep]
  by_cases hq : e = w3.player
  · rw [if_pos hq]
    exact hB
  · rw [if_neg hq]
    exact ⟨(dworld_destroy_get w3 e i hie).2.2.2.2.2.2.trans hB.1,
      (dworld_destroy_get w3 e i hie).2.2.2.2.1.trans hB.2⟩

/-- A processed death leaves the item pools of ids outside the victim's
inventory untouched. -/
theorem death_step_processed_items (u : DWorld) (e : Entity) (hc : HealthC)
    (hh : u.health.get e = some hc) (hd : hc.current ≤ 0)
    (hn : u.name.get e = some Unit.unit) (i : Entity) (hie : i ≠ e)
    (hni : i ∉ (u.inventories.get e).getD []) :
    (death_step u e).equipped.get i = u.equipped.get i ∧
    (death_step u e).positions.get i = u.positions.get i := by
  set W : DWorld := { u with log := u.log ++ [DeathLog.dies e] } with hW
  set w2 : DWorld := grant_xp W e with hw2
  set w3 : DWorld := drop_loot w2 e with hw3
  have hstep : death_step u e =
      if e = w3.player then
        { w3 with log := w3.log ++ [DeathLog.gameOver], running := false }
      else dworld_destroy w3 e := by
    simp only [death_step, hh, hn]
    rw [if_pos hd]
  have hi2eq : w2.inventories.get e = u.inventories.get e := by
    rw [hw2, (grant_xp_fields _ _).2.2.2.1]
  have heq2 : w2.equipped = u.equipped := by
    rw [hw2, (grant_xp_fields _ _).2.2.2.2.1]
  have hpos2 : w2.positions = u.positions := by
    rw [hw2, (grant_xp_fields _ _).2.2.1]
  have h3 : w3.equipped.get i = u.equipped.get i ∧
      w3.positions.get i = u.positions.get i := by
    rw [hw3]
    have hdl := drop_loot_item_get w2 e i (by rw [hi2eq]; exact hni)
    rw [heq2, hpos2] at hdl
    exact hdl
  rw [hstep]
  by_cases hq : e = w3.player
  · rw [if_pos hq]
    exact h3
  · rw [if_neg hq]
    exact ⟨(dworld_destroy_get w3 e i hie).2.2.2.2.2.2.trans h3.1,
      (dworld_destroy_get w3 e i hie).2.2.2.2.1.trans h3.2⟩

/-- A processed non-player death removes the victim from the live set,
appends its id to the free list, purges its health entry, and keeps the
termination flag. -/
theorem death_step_destroyed (u : DWorld) (e : Entity) (hc : HealthC)
    (hh : u.health.get e = some hc) (hd : hc.current ≤ 0)
    (hn : u.name.get e = some Unit.unit) (hnep : e ≠ u.player)
    (hent : e ∈ u.entities) :
    (death_step u e).entities = u.entities.filter (fun x => !(decide (x = e))) ∧
    (death_step u e).available = u.available ++ [e] ∧
    (death_step u e).health.get e = none ∧
    (death_step u e).running = u.running := by
  set W : DWorld := { u with log := u.log ++ [DeathLog.dies e] } with hW
  set w2 : DWorld := grant_xp W e with hw2
  set w3 : DWorld := drop_loot w2 e with hw3
  have hstep : death_step u e =
      if e = w3.player then
        { w3 with log := w3.log ++ [DeathLog.gameOver], running := false }
      else dworld_destroy w3 e := by
    simp only [death_step, hh, hn]
    rw [if_pos hd]
  have hpl3 : w3.player = u.player := by
    rw [hw3, hw2, (drop_loot_fields _ _).2.2.2.2.2.2.2.2,
      (grant_xp_fields _ _).2.2.2.2.2.2.2.2.1]
  have hent3 : w3.entities = u.entities := by
    rw [hw3, hw2, (drop_loot_fields _ _).2.2.2.2.2.1, (grant_xp_fields _ _).2.2.2.2.2.1]
  have havail3 : w3.available = u.available := by
    rw [hw3, hw2, (drop_loot_fields _ _).2.2.2.2.2.2.1,
      (grant_xp_fields _ _).2.2.2.2.2.2.1]
  have hrun3 : w3.running = u.running := by
    rw [hw3, hw2, (drop_loot_fields _ _).2.2.2.2.2.2.2.1,
      (grant_xp_fields _ _).2.2.2.2.2.2.2.1]
  have hv3 : e ∈ w3.entities := by
    rw [hent3]
    exact hent
  rw [hstep, if_neg (fun hh2 : e = w3.player => hnep (hh2.trans hpl3))]
  unfold dworld_destroy
  rw [if_pos hv3]
  refine ⟨?_, ?_, Dict.get_erase_self w3.health e, hrun3⟩
  · show w3.entities.filter (fun x => !(decide (x = e))) =
      u.entities.filter (fun x => !(decide (x = e)))
    rw [hent3]
  · show w3.available ++ [e] = u.available ++ [e]
    rw [havail3]

/-- A processed player death only clears the termination flag: the live
set and the free list are untouched. -/
theorem death_step_player_dead (u : DWorld) (e : Entity) (hc : HealthC)
    (hh : u.health.get e = some hc) (hd : hc.current ≤ 0)
    (hn : u.name.get e = some Unit.unit) (hep : e = u.player) :
    (death_step u e).entities = u.entities ∧
    (death_step u e).available = u.available ∧
    (death_step u e).running = false := by
  set W : DWorld := { u with log := u.log ++ [DeathLog.dies e] } with hW
  set w2 : DWorld := grant_xp W e with hw2
  set w3 : DWorld := drop_loot w2 e with hw3
  have hstep : death_step u e =
      if e = w3.player then
        { w3 with log := w3.log ++ [DeathLog.gameOver], running := false }
      else dworld_destroy w3 e := by
    simp only [death_step, hh, hn]
    rw [if_pos hd]
  have hpl3 : w3.player = u.player := by
    rw [hw3, hw2, (drop_loot_fields _ _).2.2.2.2.2.2.2.2,
      (grant_xp_fields _ _).2.2.2.2.2.2.2.2.1]
  have hent3 : w3.entities = u.entities := by
    rw [hw3, hw2, (drop_loot_fields _ _).2.2.2.2.2.1, (grant_xp_fields _ _).2.2.2.2.2.1]
  have havail3 : w3.available = u.available := by
    rw [hw3, hw2, (drop_loot_fields _ _).2.2.2.2.2.2.1,
      (grant_xp_fields _ _).2.2.2.2.2.2.1]
  rw [hstep, if_pos (hep.trans hpl3.symm)]
  refine ⟨?_, ?_, rfl⟩
  · show w3.entities = u.entities
    exact hent3
  · show w3.available = u.available
    exact havail3

theorem death_step_processed_mem (u : DWorld) (e : Entity) (hc : HealthC)
    (hh : u.health.get e = some hc) (hd : hc.current ≤ 0)
    (hn : u.name.get e = some Unit.unit) (f : Entity) (hne : f ≠ e)
    (h : f ∈ u.entities) : f ∈ (death_step u e).entities := by
  set W : DWorld := { u with log := u.log ++ [DeathLog.dies e] } with hW
  set w2 : DWorld := grant_xp W e with hw2
  set w3 : DWorld := drop_loot w2 e with hw3
  have hstep : death_step u e =
      if e = w3.player then
        { w3 with log := w3.log ++ [DeathLog.gameOver], running := false }
      else dworld_destroy w3 e := by
    simp only [death_step, hh, hn]
    rw [if_pos hd]
  have hent3 : w3.entities = u.entities := by
    rw [hw3, hw2, (drop_loot_fields _ _).2.2.2.2.2.1, (grant_xp_fields _ _).2.2.2.2.2.1]
  rw [hstep]
  by_cases hq : e = w3.player
  · rw [if_pos hq]
    show f ∈ w3.entities
    rw [hent3]
    exact h
  · rw [if_neg hq]
    exact dworld_destroy_mem_ne w3 e f hne (by rw [hent3]; exact h)

theorem death_step_processed_entities_sub (u : DWorld) (e : Entity) (hc : HealthC)
    (hh : u.health.get e = some hc) (hd : hc.current ≤ 0)
    (hn : u.name.get e = some Unit.unit) (f : Entity)
    (h : f ∈ (death_step u e).entities) : f ∈ u.entities := by
  set W : DWorld := { u with log := u.log ++ [DeathLog.dies e] } with hW
  set w2 : DWorld := grant_xp W e with hw2
  set w3 : DWorld := drop_loot w2 e with hw3
  have hstep : death_step u e =
      if e = w3.player then
        { w3 with log := w3.log ++ [DeathLog.gameOver], running := false }
      else dworld_destroy w3 e := by
    simp only [death_step, hh, hn]
    rw [if_pos hd]
  have hent3 : w3.entities = u.entities := by
    rw [hw3, hw2, (drop_loot_fields _ _).2.2.2.2.2.1, (grant_xp_fields _ _).2.2.2.2.2.1]
  rw [hstep] at h
  by_cases hq : e = w3.player
  · rw [if_pos hq] at h
    have h2 : f ∈ w3.entities := h
    rw [hent3] at h2
    exact h2
  · rw [if_neg hq] at h
    have h2 := dworld_destroy_entities_sub w3 e f h
    rw [hent3] at h2
    exact h2

/-- A death step never adds entities. -/
theorem death_step_entities_sub (u : DWorld) (e f : Entity)
    (h : f ∈ (death_step u e).entities) : f ∈ u.entities := by
  rcases death_step_cases u e with heq | ⟨hc, hh, hd, hn⟩
  · rw [heq] at h
    exact h
  · exact death_step_processed_entities_sub u e hc hh hd hn f h

/-- A death step never removes an entity other than the one processed. -/
theorem death_step_mem_entities_ne (u : DWorld) (e f : Entity) (hne : f ≠ e)
    (h : f ∈ u.entities) : f ∈ (death_step u e).entities := by
  rcases death_step_cases u e with heq | ⟨hc, hh, hd, hn⟩
  · rw [heq]
    exact h
  · exact death_step_processed_mem u e hc hh hd hn f hne h

/-- A death step never removes the player from the live set. -/
theorem death_step_player_mem (u : DWorld) (e : Entity)
    (h : u.player ∈ u.entities) : u.player ∈ (death_step u e).entities := by
  rcases death_step_cases u e with heq | ⟨hc, hh, hd, hn⟩
  · rw [heq]
    exact h
  · by_cases hq : u.player = e
    · have hp := death_step_player_dead u e hc hh hd hn hq.symm
      rw [hp.1]
      exact h
    · exact death_step_processed_mem u e hc hh hd hn u.player hq h

/-- A death step never resets the termination flag. -/
theorem death_step_running_false (u : DWorld) (e : Entity)
    (h : u.running = false) : (death_step u e).running = false := by
  rcases death_step_cases u e with heq | ⟨hc, hh, hd, hn⟩
  · rw [heq]
    exact h
  · set W : DWorld := { u with log := u.log ++ [DeathLog.dies e] } with hW
    set w2 : DWorld := grant_xp W e with hw2
    set w3 : DWorld := drop_loot w2 e with hw3
    have hstep : death_step u e =
        if e = w3.player then
          { w3 with log := w3.log ++ [DeathLog.gameOver], running := false }
        else dworld_destroy w3 e := by
      simp only [death_step, hh, hn]
      rw [if_pos hd]
    have hrun3 : w3.running = u.running := by
      rw [hw3, hw2, (drop_loot_fields _ _).2.2.2.2.2.2.2.1,
        (grant_xp_fields _ _).2.2.2.2.2.2.2.1]
    rw [hstep]
    by_cases hq : e = w3.player
    · rw [if_pos hq]
    · rw [if_neg hq]
      exact (dworld_destroy_fields w3 e).2.trans (hrun3.trans h)

/-- Whether another entity is a processed victim is invariant under one
death step. -/
theorem is_processed_victim_step (u : DWorld) (e f : Entity) (hne : f ≠ e) :
    is_processed_victim (death_step u e) f = is_processed_victim u f := by
  simp only [is_processed_victim]
  rw [(death_step_frame u e f hne).1, (death_step_frame u e f hne).2.1]

/-- Another entity's experience award is invariant under one death step. -/
theorem xp_award_step (u : DWorld) (e f : Entity) (hne : f ≠ e) :
    xp_award (death_step u e) f = xp_award u f := by
  simp only [xp_award]
  rw [(death_step_frame u e f hne).2.2.1]

/-- Folding death steps over a list not containing `e` keeps `e`'s health
entry. -/
theorem fold_health_get (l : List Entity) :
    ∀ (u : DWorld) (e : Entity), e ∉ l →
      (l.foldl death_step u).health.get e = u.health.get e := by
  induction l with
  | nil =>
    intro u e _
    rfl
  | cons f rest ih =>
    intro u e he
    have hne : e ≠ f := fun hh => he (hh ▸ List.mem_cons_self f rest)
    rw [List.foldl_cons, ih (death_step u f) e (fun hh => he (List.mem_cons_of_mem f hh))]
    exact (death_step_frame u f e hne).1

/-- Folding death steps never adds entities. -/
theorem fold_entities_sub (l : List Entity) :
    ∀ (u : DWorld) (f : Entity),
      f ∈ (l.foldl death_step u).entities → f ∈ u.entities := by
  induction l with
  | nil =>
    intro u f h
    exact h
  | cons g rest ih =>
    intro u f h
    rw [List.foldl_cons] at h
    exact death_step_entities_sub u g f (ih (death_step u g) f h)

/-- Folding death steps never resets the termination flag. -/
theorem fold_running_false (l : List Entity) :
    ∀ u : DWorld, u.running = false → (l.foldl death_step u).running = false := by
  induction l with
  | nil =>
    intro u h
    exact h
  | cons g rest ih =>
    intro u h
    rw [List.foldl_cons]
    exact ih (death_step u g) (death_step_running_false u g h)

/-- Folding death steps never removes the player from the live set. -/
theorem fold_player_mem (l : List Entity) :
    ∀ u : DWorld, u.player ∈ u.entities →
      u.player ∈ (l.foldl death_step u).entities := by
  induction l with
  | nil =>
    intro u h
    exact h
  | cons g rest ih =>
    intro u h
    rw [List.foldl_cons]
    have h2 : (death_step u g).player ∈ (death_step u g).entities := by
      rw [death_step_player_eq u g]
      exact death_step_player_mem u g h
    have h3 := ih (death_step u g) h2
    rw [death_step_player_eq u g] at h3
    exact h3

/-- An id that is not in the pass list and is carried by no processed
victim of the pass keeps its equipped/position entries through the fold. -/
theorem fold_item_preserve (l : List Entity) :
    ∀ (u : DWorld) (i : Entity), l.Nodup → i ∉ l →
      (∀ f ∈ l, is_processed_victim u f = true →
        i ∉ (u.inventories.get f).getD []) →
      (l.foldl death_step u).equipped.get i = u.equipped.get i ∧
      (l.foldl death_step u).positions.get i = u.positions.get i := by
  induction l with
  | nil =>
    intro u i _ _ _
    exact ⟨rfl, rfl⟩
  | cons f rest ih =>
    intro u i hnd hil hnot
    obtain ⟨hf, hndr⟩ := List.nodup_cons.mp hnd
    have hif : i ≠ f := fun hh => hil (hh ▸ List.mem_cons_self f rest)
    have hir : i ∉ rest := fun hh => hil (List.mem_cons_of_mem f hh)
    rw [List.foldl_cons]
    have hstepi : (death_step u f).equipped.get i = u.equipped.get i ∧
        (death_step u f).positions.get i = u.positions.get i := by
      rcases death_step_cases u f with heq | ⟨hc, hh, hd, hn⟩
      · rw [heq]
        exact ⟨rfl, rfl⟩
      · exact death_step_processed_items u f hc hh hd hn i hif
          (hnot f (List.mem_cons_self f rest)
            ((is_processed_victim_iff u f).mpr ⟨hc, hh, hd, hn⟩))
    have hnot' : ∀ g ∈ rest, is_processed_victim (death_step u f) g = true →
        i ∉ ((death_step u f).inventories.get g).getD [] := by
      intro g hg hpg
      have hgf : g ≠ f := fun hh => hf (hh ▸ hg)
      rw [is_processed_victim_step u f g hgf] at hpg
      rw [(death_step_frame u f g hgf).2.2.2]
      exact hnot g (List.mem_cons_of_mem f hg) hpg
    have hrest := ih (death_step u f) i hndr hir hnot'
    exact ⟨hrest.1.trans hstepi.1, hrest.2.trans hstepi.2⟩

/-- Main fold invariant of the death pass: over any duplicate-free pass
list whose processed victims are alive, whose victims' carried item ids
are outside the pass list, and whose victims' inventories are pairwise
disjoint, the fold (1) adds every victim's award to the player's
experience, (2) appends exactly the non-player victims, in pass order,
to the free list, (3) removes every non-player victim from the live set
and purges its health entry, (4) on a player victim clears the running
flag and keeps the player alive, and (5) drops every victim's carried
item, unequipped, at the victim's cell. -/
theorem death_fold_spec (l : List Entity) :
    ∀ u : DWorld, l.Nodup →
      (∀ v ∈ lvictims u l, v ∈ u.entities) →
      (∀ v ∈ lvictims u l, ∀ i ∈ (u.inventories.get v).getD [], i ∉ l) →
      (∀ v ∈ lvictims u l, ∀ v2 ∈ lvictims u l, v ≠ v2 →
        ∀ i ∈ (u.inventories.get v).getD [], i ∉ (u.inventories.get v2).getD []) →
      (∀ xp : Int, u.experience.get u.player = some xp →
        (l.foldl death_step u).experience.get u.player = some (xp + lxp_total u l)) ∧
      ((l.foldl death_step u).available =
        u.available ++ (lvictims u l).filter (fun v => !(decide (v = u.player)))) ∧
      (∀ v ∈ lvictims u l, v ≠ u.player →
        v ∉ (l.foldl death_step u).entities ∧
        (l.foldl death_step u).health.get v = none) ∧
      (u.player ∈ lvictims u l →
        (l.foldl death_step u).running = false ∧
        u.player ∈ (l.foldl death_step u).entities) ∧
      (∀ v ∈ lvictims u l, ∀ (pv : PositionC) (its : List Entity),
        u.positions.get v = some pv → u.inventories.get v = some its →
        ∀ i ∈ its,
          (l.foldl death_step u).equipped.get i = none ∧
          (l.foldl death_step u).positions.get i = some pv) := by
  induction l with
  | nil =>
    intro u _ _ _ _
    refine ⟨?_, ?_, ?_, ?_, ?_⟩
    · intro xp hx
      rw [show lxp_total u [] = (0 : Int) from rfl, add_zero]
      exact hx
    · simp [lvictims]
    · intro v hv
      simp [lvictims] at hv
    · intro hv
      simp [lvictims] at hv
    · intro v hv
      simp [lvictims] at hv
  | cons e rest ih =>
    intro u hnd hlive hitems hdisj
    obtain ⟨hfe, hndr⟩ := List.nodup_cons.mp hnd
    rw [List.foldl_cons]
    cases hproc : is_processed_victim u e with
    | false =>
      rw [death_step_skip u e hproc]
      have hlv : lvictims u (e :: rest) = lvictims u rest := by
        simp [lvictims, List.filter_cons, hproc]
      have hlx : lxp_total u (e :: rest) = lxp_total u rest := by
        simp only [lxp_total]
        rw [hlv]
      have hres := ih u hndr
        (fun v hv => hlive v (by rw [hlv]; exact hv))
        (fun v hv i hi hir =>
          hitems v (by rw [hlv]; exact hv) i hi (List.mem_cons_of_mem e hir))
        (fun v hv v2 hv2 hne i hi =>
          hdisj v (by rw [hlv]; exact hv) v2 (by rw [hlv]; exact hv2) hne i hi)
      refine ⟨?_, ?_, ?_, ?_, ?_⟩
      · intro xp hx
        rw [hlx]
        exact hres.1 xp hx
      · rw [hlv]
        exact hres.2.1
      · intro v hv
        rw [hlv] at hv
        exact hres.2.2.1 v hv
      · intro hv
        rw [hlv] at hv
        exact hres.2.2.2.1 hv
      · intro v hv
        rw [hlv] at hv
        exact hres.2.2.2.2 v hv
    | true =>
      obtain ⟨hc, hh, hd, hn⟩ := (is_processed_victim_iff u e).mp hproc
      have hlv : lvictims u (e :: rest) = e :: lvictims u rest := by
        simp [lvictims, List.filter_cons, hproc]
      have hel : e ∈ lvictims u (e :: rest) := by
        rw [hlv]
        exact List.mem_cons_self e _
      have hplayer1 : (death_step u e).player = u.player := death_step_player_eq u e
      have hvrest_ne : ∀ v, v ∈ lvictims u rest → v ≠ e := by
        intro v hv hh2
        exact hfe (hh2 ▸ List.mem_of_mem_filter hv)
      have hTvic : lvictims (death_step u e) rest = lvictims u rest := by
        apply list_filter_congr
        intro f hf
        exact is_processed_victim_step u e f (fun hh2 => hfe (hh2 ▸ hf))
      have hTxp : lxp_total (death_step u e) rest = lxp_total u rest := by
        simp only [lxp_total]
        rw [hTvic]
        exact congrArg List.sum (list_map_congr _ _ _
          (fun f hf => xp_award_step u e f (hvrest_ne f hf)))
      have hsub : ∀ v, v ∈ lvictims u rest → v ∈ lvictims u (e :: rest) := by
        intro v hv
        rw [hlv]
        exact List.mem_cons_of_mem e hv
      have hinv_pres : ∀ v, v ∈ lvictims u rest →
          (death_step u e).inventories.get v = u.inventories.get v := by
        intro v hv
        exact (death_step_frame u e v (hvrest_ne v hv)).2.2.2
      have hlive2 : ∀ v ∈ lvictims (death_step u e) rest,
          v ∈ (death_step u e).entities := by
        intro v hv
        rw [hTvic] at hv
        exact death_step_mem_entities_ne u e v (hvrest_ne v hv) (hlive v (hsub v hv))
      have hitems2 : ∀ v ∈ lvictims (death_step u e) rest,
          ∀ i ∈ ((death_step u e).inventories.get v).getD [], i ∉ rest := by
        intro v hv i hi hir
        rw [hTvic] at hv
        rw [hinv_pres v hv] at hi
        exact hitems v (hsub v hv) i hi (List.mem_cons_of_mem e hir)
      have hdisj2 : ∀ v ∈ lvictims (death_step u e) rest,
          ∀ v2 ∈ lvictims (death_step u e) rest, v ≠ v2 →
          ∀ i ∈ ((death_step u e).inventories.get v).getD [],
            i ∉ ((death_step u e).inventories.get v2).getD [] := by
        intro v hv v2 hv2 hne i hi
        rw [hTvic] at hv hv2
        rw [hinv_pres v hv] at hi
        rw [hinv_pres v2 hv2]
        exact hdisj v (hsub v hv) v2 (hsub v2 hv2) hne i hi
      have hres := ih (death_step u e) hndr hlive2 hitems2 hdisj2
      refine ⟨?_, ?_, ?_, ?_, ?_⟩
      · intro xp hx
        have hx2 : (death_step u e).experience.get (death_step u e).player =
            some (xp + xp_award u e) := by
          rw [hplayer1]
          exact death_step_experience_processed u e hc hh hd hn xp hx
        have h1 := hres.1 (xp + xp_award u e) hx2
        rw [hplayer1, hTxp] at h1
        have hsum : lxp_total u (e :: rest) = xp_award u e + lxp_total u rest := by
          simp only [lxp_total]
          rw [hlv]
          simp [List.map_cons, List.sum_cons]
        rw [hsum, ← add_assoc]
        exact h1
      · by_cases hq : e = u.player
        · have hstepav := death_step_player_dead u e hc hh hd hn hq
          have hfil : (lvictims u (e :: rest)).filter
                (fun v => !(decide (v = u.player))) =
              (lvictims u rest).filter (fun v => !(decide (v = u.player))) := by
            rw [hlv, List.filter_cons]
            simp [hq]
          rw [hfil]
          have h2 := hres.2.1
          rw [hTvic] at h2
          simp only [hplayer1] at h2
          rw [hstepav.2.1] at h2
          exact h2
        · have hstepav := death_step_destroyed u e hc hh hd hn hq (hlive e hel)
          have hfil : (lvictims u (e :: rest)).filter
                (fun v => !(decide (v = u.player))) =
              e :: (lvictims u rest).filter (fun v => !(decide (v = u.player))) := by
            rw [hlv, List.filter_cons]
            simp [hq]
          rw [hfil]
          have h2 := hres.2.1
          rw [hTvic] at h2
          simp only [hplayer1] at h2
          rw [hstepav.2.1] at h2
          rw [h2, List.append_assoc]
          rfl
      · intro v hv hvp
        rw [hlv] at hv
        rcases List.mem_cons.mp hv with rfl | hv2
        · have hstepd := death_step_destroyed u v hc hh hd hn hvp (hlive v hel)
          constructor
          · intro hmem
            have h2 := fold_entities_sub rest (death_step u v) v hmem
            rw [hstepd.1] at h2
            rcases List.mem_filter.mp h2 with ⟨h3, h4⟩
            simp at h4
          · rw [fold_health_get rest (death_step u v) v hfe]
            exact hstepd.2.2.1
        · have h3 := hres.2.2.1 v (by rw [hTvic]; exact hv2)
            (by rw [hplayer1]; exact hvp)
          exact h3
      · intro hpv
        rw [hlv] at hpv
        by_cases hq : e = u.player
        · have hstepp := death_step_player_dead u e hc hh hd hn hq
          constructor
          · exact fold_running_false rest (death_step u e) hstepp.2.2
          · have hp0 : u.player ∈ u.entities := by
              rw [← hq]
              exact hlive e hel
            have hp1 : (death_step u e).player ∈ (death_step u e).entities := by
              rw [hplayer1, hstepp.1]
              exact hp0
            have hp2 := fold_player_mem rest (death_step u e) hp1
            rw [hplayer1] at hp2
            exact hp2
        · rcases List.mem_cons.mp hpv with hh2 | hpv2
          · exact absurd hh2.symm hq
          · have h4 := hres.2.2.2.1 (by rw [hplayer1, hTvic]; exact hpv2)
            rw [hplayer1] at h4
            exact h4
      · intro v hv pv its hp hi i him
        have higetD : i ∈ (u.inventories.get v).getD [] := by
          rw [hi, Option.getD_some]
          exact him
        rw [hlv] at hv
        rcases List.mem_cons.mp hv with rfl | hv2
        · have hie : i ≠ v := fun hh2 =>
            hitems v hel i higetD (hh2 ▸ List.mem_cons_self v rest)
          have hirest : i ∉ rest := fun hh2 =>
            hitems v hel i higetD (List.mem_cons_of_mem v hh2)
          have hstepB := death_step_drops u v hc hh hd hn pv its hp hi i hie him
          have hnot2 : ∀ f ∈ rest, is_processed_victim (death_step u v) f = true →
              i ∉ ((death_step u v).inventories.get f).getD [] := by
            intro f hf hpf
            have hfe2 : f ≠ v := fun hh2 => hfe (hh2 ▸ hf)
            rw [is_processed_victim_step u v f hfe2] at hpf
            rw [(death_step_frame u v f hfe2).2.2.2]
            have hfv : f ∈ lvictims u (v :: rest) := by
              rw [hlv]
              exact List.mem_cons_of_mem v (List.mem_filter.mpr ⟨hf, hpf⟩)
            exact hdisj v hel f hfv (fun hh2 => hfe2 hh2.symm) i higetD
          have hpres := fold_item_preserve rest (death_step u v) i hndr hirest hnot2
          exact ⟨hpres.1.trans hstepB.1, hpres.2.trans hstepB.2⟩
        · have hvne : v ≠ e := hvrest_ne v hv2
          have hvnotiteme : v ∉ (u.inventories.get e).getD [] := fun hcon =>
            hitems e hel v hcon
              (List.mem_cons_of_mem e (List.mem_of_mem_filter hv2))
          have h5 := hres.2.2.2.2 v (by rw [hTvic]; exact hv2) pv its
            (by
              rw [(death_step_processed_items u e hc hh hd hn v hvne hvnotiteme).2]
              exact hp)
            (by
              rw [(death_step_frame u e v hvne).2.2.2]
              exact hi)
            i him
          exact h5

/-- C3: every entity whose health is ≤ 0 at the start of the death pass
(and that carries the `Name` the handler reads) is death-processed exactly
once, arbitrarily many per pass. Over the whole pass: the player's
experience total grows by exactly the sum of the victims' experience
values, each counted once (victims without `GivesExperience`, such as a
bare skeleton or mage, contribute 0 and need no inventory); every
non-player victim is removed from the live set, its health entry purged
and its id appended to the free list for recycling, while a player victim
is never destroyed — the world's running flag is cleared instead; and
every item carried by a victim that has a position is unequipped and
given a Position at the victim's last cell. The pass list is the health
pool's snapshot key list; the standing ECS invariants assumed are that it
is duplicate-free, victims are live, and carried item ids are not
themselves health-bearing pass entries and are not shared between
victims. -/
theorem C3_death_processing (w : DWorld)
    (hnodup : w.health.keys.Nodup)
    (hlive : ∀ v ∈ victims w, v ∈ w.entities)
    (hitems : ∀ v ∈ victims w, ∀ i ∈ (w.inventories.get v).getD [],
      i ∉ w.health.keys)
    (hdisj : ∀ v ∈ victims w, ∀ v2 ∈ victims w, v ≠ v2 →
      ∀ i ∈ (w.inventories.get v).getD [], i ∉ (w.inventories.get v2).getD []) :
    (∀ xp : Int, w.experience.get w.player = some xp →
      (death_pass w).experience.get w.player = some (xp + xp_total w)) ∧
    ((death_pass w).available =
      w.available ++ (victims w).filter (fun v => !(decide (v = w.player)))) ∧
    (∀ v ∈ victims w, v ≠ w.player →
      v ∉ (death_pass w).entities ∧ (death_pass w).health.get v = none) ∧
    (w.player ∈ victims w →
      (death_pass w).running = false ∧ w.player ∈ (death_pass w).entities) ∧
    (∀ v ∈ victims w, ∀ (pv : PositionC) (its : List Entity),
      w.positions.get v = some pv → w.inventories.get v = some its →
      ∀ i ∈ its,
        (death_pass w).equipped.get i = none ∧
        (death_pass w).positions.get i = some pv) :=
  death_fold_spec w.health.keys w hnodup hlive hitems hdisj

/-- C3 witness: in `deathCex` both the item-carrying goblin (entity 5)
and the inventory-less skeleton (entity 6) die in the same pass: the
player's experience becomes 10 + 85, ids 5 then 6 are appended to the
free list, both victims leave the live set with health purged, and the
goblin's item 9 is dropped unequipped at (4, 4). -/
theorem C3_death_processing_witness :
    (victims deathCex = [5, 6] ∧ xp_total deathCex = 85) ∧
    (death_pass deathCex).experience.get deathCex.player =
      some (10 + xp_total deathCex) ∧
    (death_pass deathCex).available =
      deathCex.available ++
        (victims deathCex).filter (fun v => !(decide (v = deathCex.player))) ∧
    (5 ∉ (death_pass deathCex).entities ∧
      (death_pass deathCex).health.get 5 = none) ∧
    (6 ∉ (death_pass deathCex).entities ∧
      (death_pass deathCex).health.get 6 = none) ∧
    ((death_pass deathCex).equipped.get 9 = none ∧
      (death_pass deathCex).positions.get 9 = some ⟨4, 4⟩) := by
  have h := C3_death_processing deathCex (by decide) (by decide) (by decide)
    (by decide)
  exact ⟨⟨by decide, by decide⟩, h.1 10 rfl, h.2.1,
    h.2.2.1 5 (by decide) (by decide), h.2.2.1 6 (by decide) (by decide),
    h.2.2.2.2 5 (by decide) ⟨4, 4⟩ [9] rfl rfl 9 (by decide)⟩

/-- Every cell a cast ray marks visible is on the walked line, with no
light-blocking cell strictly before it on that line. -/
theorem cast_ray_reaches (cfg : VisConfig) (walls : List (Int × Int)) (px py : Int)
    (l : List (Int × Int)) (c : Int × Int)
    (hc : c ∈ cast_ray cfg walls px py l) :
    ∃ pre post, l = pre ++ c :: post ∧ ∀ b ∈ pre, b ∉ walls := by
  induction l with
  | nil => simp [cast_ray] at hc
  | cons hd rest ih =>
    obtain ⟨lx, ly⟩ := hd
    have hstep : cast_ray cfg walls px py ((lx, ly) :: rest) =
        if ¬(0 ≤ lx ∧ lx < cfg.grid_width ∧ 0 ≤ ly ∧ ly < cfg.grid_height) then []
        else if (lx - px) ^ 2 + (ly - py) ^ 2 > cfg.fov_radius ^ 2 then []
        else if (lx, ly) ∈ walls then [(lx, ly)]
        else (lx, ly) :: cast_ray cfg walls px py rest := rfl
    by_cases h1 : 0 ≤ lx ∧ lx < cfg.grid_width ∧ 0 ≤ ly ∧ ly < cfg.grid_height
    · rw [hstep, if_neg (not_not_intro h1)] at hc
      by_cases h2 : (lx - px) ^ 2 + (ly - py) ^ 2 > cfg.fov_radius ^ 2
      · rw [if_pos h2] at hc
        simp at hc
      · rw [if_neg h2] at hc
        by_cases h3 : (lx, ly) ∈ walls
        · rw [if_pos h3] at hc
          have hceq : c = (lx, ly) := by simpa using hc
          subst hceq
          exact ⟨[], rest, rfl, by simp⟩
        · rw [if_neg h3] at hc
          rcases List.mem_cons.mp hc with hceq | hc2
          · subst hceq
            exact ⟨[], rest, rfl, by simp⟩
          · obtain ⟨pre, post, hsplit, hpre⟩ := ih hc2
            refine ⟨(lx, ly) :: pre, post, by rw [hsplit]; rfl, ?_⟩
            intro b hb
            rcases List.mem_cons.mp hb with hb | hb
            · rw [hb]; exact h3
            · exact hpre b hb
    · rw [hstep, if_pos h1] at hc
      simp at hc

/-- C5 counterexample: player at (10,10), wall at (11,11), default
config.  The discrete line from the player to (12,11) crosses the wall
strictly before reaching it, so the claim says (12,11) is never marked
currently-visible — yet the ray cast toward (13,11) walks
(10,10),(11,10),(12,11),… and marks (12,11) visible. -/
theorem C5_counterexample :
    bresenham_line 10 10 12 11 = [(10, 10), (11, 11), (12, 11)] ∧
    ((11, 11) : Int × Int) ∈ visCexWalls ∧
    ((11, 11) : Int × Int) ∈ (bresenham_line 10 10 12 11).dropLast ∧
    ((12, 11) : Int × Int) ∈ visible_cells_after visCfg visCexWalls 10 10 ∧
    visibility_after visCfg visCexWalls 10 10 (fun _ => 0) (12, 11) = 2 := by
  have hmem : ((12, 11) : Int × Int) ∈ visible_cells_after visCfg visCexWalls 10 10 := by
    apply List.mem_cons_of_mem
    apply List.mem_flatMap.mpr
    exact ⟨(13, 11), by decide, by decide⟩
  refine ⟨by decide, by decide, by decide, hmem, ?_⟩
  simp [visibility_after, hmem]

/-- C5 amended: after each recomputation the player's own cell is marked
currently-visible, and every cell marked currently-visible is either the
player's cell or lies on *some* cast ray (to a target within the FOV
disk) with no light-blocking cell strictly before it on *that* ray —
rather than on the cell's own line from the player. -/
theorem C5_fov_visibility (cfg : VisConfig) (walls : List (Int × Int))
    (px py : Int) (old : (Int × Int) → Nat) :
    visibility_after cfg walls px py old (px, py) = 2 ∧
    (∀ c : Int × Int, visibility_after cfg walls px py old c = 2 →
      c = (px, py) ∨ ∃ t ∈ fov_targets cfg px py, ∃ pre post,
        bresenham_line px py t.1 t.2 = pre ++ c :: post ∧
        ∀ b ∈ pre, b ∉ walls) := by
  constructor
  · simp [visibility_after, visible_cells_after]
  · intro c hc
    by_cases hm : c ∈ visible_cells_after cfg walls px py
    · rcases List.mem_cons.mp hm with h | h
      · exact Or.inl h
      · right
        obtain ⟨t, ht, hray⟩ := List.mem_flatMap.mp h
        exact ⟨t, ht, cast_ray_reaches cfg walls px py _ c hray⟩
    · exfalso
      simp only [visibility_after, if_neg hm] at hc
      have := min_le_right (old c) 1
      omega

/-- C5 witness: the amended theorem applied to the counterexample world —
the player cell (10,10) is visible and (12,11) is justified by a ray. -/
theorem C5_fov_visibility_witness :
    visibility_after visCfg visCexWalls 10 10 (fun _ => 0) (10, 10) = 2 ∧
    (visibility_after visCfg visCexWalls 10 10 (fun _ => 0) (12, 11) = 2 →
      ((12, 11) : Int × Int) = (10, 10) ∨ ∃ t ∈ fov_targets visCfg 10 10,
        ∃ pre post, bresenham_line 10 10 t.1 t.2 = pre ++ (12, 11) :: post ∧
          ∀ b ∈ pre, b ∉ visCexWalls) :=
  ⟨(C5_fov_visibility visCfg visCexWalls 10 10 (fun _ => 0)).1,
    fun hc => (C5_fov_visibility visCfg visCexWalls 10 10 (fun _ => 0)).2 (12, 11) hc⟩

theorem ai_engage_fleeing (w : AIWorld) (st : EnemyState) (c : Option Int) (f : Bool) :
    (ai_engage w st c f).fleeing = f := by
  simp only [ai_engage]
  split <;> (try split) <;> (try split) <;> rfl

theorem ai_engage_cast (w : AIWorld) (st : EnemyState) (c : Option Int) (f : Bool)
    (h : ai_cast_ready w st c = true) :
    (ai_engage w st c f).intent = some AIIntent.castSpell ∧
    (ai_engage w st c f).vel = ⟨0, 0⟩ := by
  cases hs : st.spell with
  | none => simp [ai_cast_ready, hs] at h
  | some spell =>
    cases hc : c with
    | none => simp [ai_cast_ready, hs, hc] at h
    | some cd =>
      cases hm : st.mana with
      | none => simp [ai_cast_ready, hs, hc, hm] at h
      | some mana =>
        simp only [ai_cast_ready, hs, hc, hm, decide_eq_true_eq] at h
        simp [ai_engage, hs, hc, hm, h]

theorem ai_engage_no_cast (w : AIWorld) (st : EnemyState) (c : Option Int) (f : Bool)
    (h : ai_cast_ready w st c = false) :
    (ai_engage w st c f).intent =
      (if ai_shoot_condition w st then some AIIntent.shoot else none) ∧
    (ai_engage w st c f).vel =
      (if ai_shoot_condition w st then (⟨0, 0⟩ : VelocityC)
       else ⟨step_toward (w.player_pos.x - st.pos.x),
             step_toward (w.player_pos.y - st.pos.y)⟩) := by
  cases hs : st.spell with
  | none =>
    cases hsh : ai_shoot_condition w st <;> simp [ai_engage, hs, hsh]
  | some spell =>
    cases hc : c with
    | none =>
      cases hsh : ai_shoot_condition w st <;> simp [ai_engage, hs, hc, hsh]
    | some cd =>
      cases hm : st.mana with
      | none =>
        cases hsh : ai_shoot_condition w st <;> simp [ai_engage, hs, hc, hm, hsh]
      | some mana =>
        simp only [ai_cast_ready, hs, hc, hm, decide_eq_false_iff_not] at h
        cases hsh : ai_shoot_condition w st <;>
          simp [ai_engage, hs, hc, hm, h, hsh]

/-- C6 counterexample: the claim's rule (2) — already fleeing, and the
stop-condition unmet (still low health, player still visible) — applies
to `aiCexState`, so by the claim it must keep fleeing and not use a
healing item this turn; but the code's heal check runs first and it uses
potion 7. -/
theorem C6_counterexample :
    aiCexState.fleeing = true ∧
    4 * aiCexState.health.current ≤ aiCexState.health.max ∧
    (aiCexState.pos.x, aiCexState.pos.y) ∈ aiCexWorld.visible_cells ∧
    (enemy_ai_step aiCexWorld aiCexState).intent = some (AIIntent.useItem 7) := by
  refine ⟨rfl, by decide, by decide, by decide⟩

/-- C6 amended: the strict priority is (1) player not visible → wander
with the two rng deltas (any flee state is cleared); (2) player visible
and health ≤ ¼ max → use the first carried healing item — *even when
already fleeing* — else begin/continue fleeing with sign-only steps away;
(3) otherwise the flee marker is always cleared (the continue-fleeing
branch is unreachable), and the enemy attempts spellcasting, then ranged
fire, then a sign-only melee approach. -/
theorem C6_ai_priority (w : AIWorld) (st : EnemyState) :
    (¬((st.pos.x, st.pos.y) ∈ w.visible_cells) →
      (enemy_ai_step w st).vel = ⟨w.rng_dx, w.rng_dy⟩ ∧
      (enemy_ai_step w st).intent = none ∧
      (enemy_ai_step w st).fleeing = false) ∧
    (∀ (items : List Entity) (potion : Entity),
      (st.pos.x, st.pos.y) ∈ w.visible_cells →
      4 * st.health.current ≤ st.health.max →
      st.inventory = some items →
      items.find? (fun i => decide (i ∈ w.provides_healing)) = some potion →
      potion ≠ 0 →
      (enemy_ai_step w st).intent = some (AIIntent.useItem potion) ∧
      (enemy_ai_step w st).vel = ⟨0, 0⟩ ∧
      (enemy_ai_step w st).fleeing = st.fleeing) ∧
    (∀ items : List Entity,
      (st.pos.x, st.pos.y) ∈ w.visible_cells →
      4 * st.health.current ≤ st.health.max →
      st.inventory = some items →
      items.find? (fun i => decide (i ∈ w.provides_healing)) = none →
      (enemy_ai_step w st).fleeing = true ∧
      (enemy_ai_step w st).intent = none ∧
      (enemy_ai_step w st).vel =
        ⟨step_away (w.player_pos.x - st.pos.x),
         step_away (w.player_pos.y - st.pos.y)⟩) ∧
    ((st.pos.x, st.pos.y) ∈ w.visible_cells →
      ¬(4 * st.health.current ≤ st.health.max) →
      (enemy_ai_step w st).fleeing = false) ∧
    ((st.pos.x, st.pos.y) ∈ w.visible_cells →
      ¬(4 * st.health.current ≤ st.health.max) →
      ai_cast_ready w st (ai_cooldown_after_tick st.cooldown) = true →
      (enemy_ai_step w st).intent = some AIIntent.castSpell ∧
      (enemy_ai_step w st).vel = ⟨0, 0⟩) ∧
    ((st.pos.x, st.pos.y) ∈ w.visible_cells →
      ¬(4 * st.health.current ≤ st.health.max) →
      ai_cast_ready w st (ai_cooldown_after_tick st.cooldown) = false →
      ai_shoot_condition w st = true →
      (enemy_ai_step w st).intent = some AIIntent.shoot ∧
      (enemy_ai_step w st).vel = ⟨0, 0⟩) ∧
    ((st.pos.x, st.pos.y) ∈ w.visible_cells →
      ¬(4 * st.health.current ≤ st.health.max) →
      ai_cast_ready w st (ai_cooldown_after_tick st.cooldown) = false →
      ai_shoot_condition w st = false →
      (enemy_ai_step w st).intent = none ∧
      (enemy_ai_step w st).vel =
        ⟨step_toward (w.player_pos.x - st.pos.x),
         step_toward (w.player_pos.y - st.pos.y)⟩) := by
  refine ⟨?_, ?_, ?_, ?_, ?_, ?_, ?_⟩
  · intro hv
    cases hf : st.fleeing <;> simp [enemy_ai_step, hv, hf]
  · intro items potion hv hlow hinv hfind hpot
    simp [enemy_ai_step, hv, hlow, hinv, hfind, hpot]
  · intro items hv hlow hinv hfind
    simp [enemy_ai_step, hv, hlow, hinv, hfind]
  · intro hv hlow
    cases hf : st.fleeing <;>
      simp [enemy_ai_step, hv, hlow, hf, ai_engage_fleeing]
  · intro hv hlow hcast
    cases hf : st.fleeing <;>
      simpa [enemy_ai_step, hv, hlow, hf] using
        ai_engage_cast w st (ai_cooldown_after_tick st.cooldown) false hcast
  · intro hv hlow hcast hsh
    cases hf : st.fleeing <;>
      simpa [enemy_ai_step, hv, hlow, hf, hsh] using
        ai_engage_no_cast w st (ai_cooldown_after_tick st.cooldown) false hcast
  · intro hv hlow hcast hsh
    cases hf : st.fleeing <;>
      simpa [enemy_ai_step, hv, hlow, hf, hsh] using
        ai_engage_no_cast w st (ai_cooldown_after_tick st.cooldown) false hcast

/-- C6 witness: the fleeing low-health enemy with potion 7 in sight of
the player — the amended priority says it heals, and it does. -/
theorem C6_ai_priority_witness :
    (aiCexState.pos.x, aiCexState.pos.y) ∈ aiCexWorld.visible_cells ∧
    ((enemy_ai_step aiCexWorld aiCexState).intent = some (AIIntent.useItem 7) ∧
      (enemy_ai_step aiCexWorld aiCexState).vel = ⟨0, 0⟩ ∧
      (enemy_ai_step aiCexWorld aiCexState).fleeing = aiCexState.fleeing) :=
  ⟨by decide,
    (C6_ai_priority aiCexWorld aiCexState).2.1 [7] 7 (by decide) (by decide) rfl
      (by decide) (by decide)⟩

/-- C7 counterexample: `EnemyAISystem` (registration index 11) creates
`WantsToCastSpell`, whose sole consumer `MagicSystem` runs at index 8 —
before it in the pass.  The enemy's cast intent therefore survives the
pass in which it was created and is still attached when the next full
pipeline pass begins, refuting the claim. -/
theorem C7_counterexample :
    SystemId.enemyAI ∈ intent_producers IntentKind.wantsToCastSpell ∧
    ¬sysIdx SystemId.enemyAI < sysIdx (intent_consumer IntentKind.wantsToCastSpell) := by
  decide

/-- C7 amended: every one-shot intent kind has exactly one consuming
system, and every producing system is registered before that consumer —
so the intent is consumed in the same pipeline pass — except an enemy's
`WantsToCastSpell`: `EnemyAISystem` runs after `MagicSystem`, so that one
intent is consumed (still by its unique consumer, which runs ungated) at
the start of the *next* pass. -/
theorem C7_intent_consumed_same_pass :
    ∀ (k : IntentKind) (p : SystemId), p ∈ intent_producers k →
      sysIdx p < sysIdx (intent_consumer k) ∨
        (k = IntentKind.wantsToCastSpell ∧ p = SystemId.enemyAI ∧
          sysIdx (intent_consumer k) < sysIdx p) := by
  decide

/-- C7 witness: the melee-attack intent, produced by the movement system,
is consumed later in the same pass. -/
theorem C7_intent_consumed_same_pass_witness :
    SystemId.movement ∈ intent_producers IntentKind.wantsToAttack ∧
    (sysIdx SystemId.movement < sysIdx (intent_consumer IntentKind.wantsToAttack) ∨
      (IntentKind.wantsToAttack = IntentKind.wantsToCastSpell ∧
        SystemId.movement = SystemId.enemyAI ∧
        sysIdx (intent_consumer IntentKind.wantsToAttack) < sysIdx SystemId.movement)) :=
  ⟨by decide, C7_intent_consumed_same_pass IntentKind.wantsToAttack SystemId.movement
    (by decide)⟩

/-- C10 witness: a user at 3/10 healing for 20 is clamped to 10; the
already-full clause holds vacuously. -/
theorem C10_healing_clamped_witness :
    (7 : Entity) ∈ [7] ∧
    (((heal_item_use ⟨3, 10⟩ [7] 7 20).health.current ≤ (10 : Int) ∨
        (heal_item_use ⟨3, 10⟩ [7] 7 20).health.current = 3) ∧
      ((3 : Int) < 10 →
        (heal_item_use ⟨3, 10⟩ [7] 7 20).health.current = min 10 (3 + 20)) ∧
      (¬(3 : Int) < 10 →
        (heal_item_use ⟨3, 10⟩ [7] 7 20).health = ⟨3, 10⟩ ∧
        7 ∈ (heal_item_use ⟨3, 10⟩ [7] 7 20).inventory ∧
        (heal_item_use ⟨3, 10⟩ [7] 7 20).destroyed = [] ∧
        (heal_item_use ⟨3, 10⟩ [7] 7 20).log = [HealLog.alreadyFull]) ∧
      (heal_item_use ⟨3, 10⟩ [7] 7 20).intent_removed = true) :=
  ⟨by decide, C10_healing_clamped ⟨3, 10⟩ [7] 7 20 (by decide)⟩

end ECSRPG
